import Mathlib

/-!
# Verification of the map_quest_renderer animation core

Shallow embedding of the repository's animation core:

* `src/js/zoom-utils.js` — progress thresholds, segment lookup, zoom
  keyframes and smoothstep interpolation (section `ZoomUtils`);
* `src/icons/icon-renderer.js` — icon orientation math (section
  `IconRenderer`);
* `src/js/map-init.js` (third document: the shared Animation Core) —
  `createAnimationState`, `createAnimationConfig`, `renderFrame`,
  `calculateTotalHikingDistance` (section `AnimationCore`);
* `src/animate-frames.js` (second document) — the frame-exact driver's
  pause bookkeeping around `renderCinematicFrame` (section `FrameDriver`).

JavaScript numbers are modelled as exact rationals (`ℚ`) for the
progress/zoom/coordinate arithmetic, and as reals (`ℝ`) where the source
applies transcendental functions (`Math.atan2`, the Haversine formula).
JS truthiness of a number (`x || d`) is modelled by testing the number
against 0, and a possibly-missing (`undefined`) field by `Option`.
-/

namespace MapQuest

/-- JS `a || d` for a possibly-missing number `a`: `undefined` and `0` are
falsy, every other number is truthy. -/
def jsOr (a : Option ℚ) (d : ℚ) : ℚ :=
  match a with
  | none => d
  | some v => if v = 0 then d else v

/-- JS `a || d` where `a` is a number that is certainly present. -/
def jsOrNum (a d : ℚ) : ℚ := if a = 0 then d else a

/-- One route leg, as assembled by the drivers (`animate-frames.js`,
`routeSegments.push({...})`): coordinate polyline, icon kind, labels,
travel mode, optional explicit zoom and optional pause duration. -/
structure Segment where
  coordinates : List (ℚ × ℚ)
  icon : String
  fromLabel : Option String
  toLabel : Option String
  travelMode : String
  zoomLevel : Option ℚ
  pause : Option ℚ
deriving Repr, DecidableEq

namespace ZoomUtils

/-- Options object of `calculateSegmentZoomLevels` (`zoom-utils.js:16-19`).
`none` models an absent (`undefined`) field. -/
structure ZoomOptions where
  maxZoom : Option ℚ := none
  defaultCloseZoom : Option ℚ := none
  padding : Option (ℚ × ℚ) := none
deriving Repr, DecidableEq

/-- `calculateSegmentZoomLevels(map, routeSegments, allCoordinates, options)`
(`zoom-utils.js:16-37`).  The Leaflet calls `L.latLngBounds(coords)` plus
`map.getBoundsZoom(bounds, false, padding)` belong to the external mapping
surface; they are abstracted as the parameter `getBoundsZoom`, a function
from the coordinate list spanning the bounds and the padding pair to a
zoom number. -/
def calculateSegmentZoomLevels (getBoundsZoom : List (ℚ × ℚ) → ℚ × ℚ → ℚ)
    (routeSegments : List Segment) (allCoordinates : List (ℚ × ℚ))
    (options : ZoomOptions) : List ℚ :=
  let maxZoom := jsOr options.maxZoom 15
  let defaultCloseZoom := min (jsOr options.defaultCloseZoom 14) maxZoom
  let padding := options.padding.getD (100, 100)
  let overviewZoom := getBoundsZoom allCoordinates (80, 80)
  routeSegments.map (fun seg =>
    let zoom :=
      match seg.zoomLevel with
      | some z => z
      | none =>
          let autoZoom := getBoundsZoom seg.coordinates padding
          max (max autoZoom overviewZoom) defaultCloseZoom
    min zoom maxZoom)

/-- A `{ progress, zoom }` keyframe (`zoom-utils.js:45-60`). -/
structure Keyframe where
  progress : ℚ
  zoom : ℚ
deriving Repr, DecidableEq

/-- `createZoomKeyframes(segmentZoomLevels, segmentProgressThresholds)`
(`zoom-utils.js:45-60`): a leading keyframe at progress 0 with the first
zoom, then one keyframe per threshold.  Out-of-range indices (possible in
JS only when the two arrays disagree in length) default to 0. -/
def createZoomKeyframes (segmentZoomLevels segmentProgressThresholds : List ℚ) :
    List Keyframe :=
  ⟨0, segmentZoomLevels.getD 0 0⟩ ::
    (List.range segmentProgressThresholds.length).map (fun i =>
      ⟨segmentProgressThresholds.getD i 0, segmentZoomLevels.getD i 0⟩)

/-- The keyframe-pair search loop of `getInterpolatedZoom`
(`zoom-utils.js:73-79`): first adjacent pair `(kf[i], kf[i+1])` with
`kf[i].progress ≤ progress ≤ kf[i+1].progress`, if any. -/
def findKeyframePair (progress : ℚ) : List Keyframe → Option (Keyframe × Keyframe)
  | a :: b :: rest =>
      if a.progress ≤ progress ∧ progress ≤ b.progress then some (a, b)
      else findKeyframePair progress (b :: rest)
  | _ => none

/-- `getInterpolatedZoom(progress, zoomKeyframes)` (`zoom-utils.js:68-87`):
smoothstep blend between the bracketing keyframes; defaults to the pair
(first keyframe, last keyframe) when the loop finds no bracketing pair. -/
def getInterpolatedZoom (progress : ℚ) (zoomKeyframes : List Keyframe) : ℚ :=
  let prevNext :=
    match findKeyframePair progress zoomKeyframes with
    | some pr => pr
    | none => (zoomKeyframes.headD ⟨0, 0⟩, zoomKeyframes.getLastD ⟨0, 0⟩)
  let prevKeyframe := prevNext.1
  let nextKeyframe := prevNext.2
  let keyframeRange := nextKeyframe.progress - prevKeyframe.progress
  let keyframeT :=
    if keyframeRange > 0 then (progress - prevKeyframe.progress) / keyframeRange else 0
  let smoothT := keyframeT * keyframeT * (3 - 2 * keyframeT)
  prevKeyframe.zoom + (nextKeyframe.zoom - prevKeyframe.zoom) * smoothT

/-- The accumulation loop of `calculateSegmentProgressThresholds`
(`zoom-utils.js:99-104`): `cumulativeProgress += length/total` then push. -/
def thresholdLoop (totalLength : ℚ) : List ℚ → ℚ → List ℚ
  | [], _ => []
  | l :: rest, cumulativeProgress =>
      let c := cumulativeProgress + l / totalLength
      c :: thresholdLoop totalLength rest c

/-- `calculateSegmentProgressThresholds(routeSegments)`
(`zoom-utils.js:94-107`): cumulative share of the total waypoint count. -/
def calculateSegmentProgressThresholds (routeSegments : List Segment) : List ℚ :=
  let segmentLengths := routeSegments.map (fun seg => (seg.coordinates.length : ℚ))
  let totalLength := segmentLengths.foldl (· + ·) 0
  thresholdLoop totalLength segmentLengths 0

/-- Return value of `getSegmentInfo` (`zoom-utils.js:134`). -/
structure SegInfo where
  currentSegment : ℕ
  segmentStartProgress : ℚ
  segmentProgress : ℚ
deriving Repr, DecidableEq

/-- The scanning loop of `getSegmentInfo` (`zoom-utils.js:119-125`): walk
the thresholds; on the first threshold exceeding `progress` stop with its
index, otherwise remember the threshold as the running start.  `idx` is
the index of the list head, `start` the running `segmentStartProgress`,
and `lastIdx` the `thresholds.length - 1` default. -/
def segScan (progress : ℚ) : List ℚ → ℕ → ℚ → ℕ → ℕ × ℚ
  | [], _, start, lastIdx => (lastIdx, start)
  | t :: rest, idx, start, lastIdx =>
      if progress < t then (idx, start) else segScan progress rest (idx + 1) t lastIdx

/-- `getSegmentInfo(progress, segmentProgressThresholds)`
(`zoom-utils.js:115-135`).  `thresholds[currentSegment] || 1` is JS: an
out-of-range index (`undefined`) and a threshold equal to 0 both fall back
to 1. -/
def getSegmentInfo (progress : ℚ) (segmentProgressThresholds : List ℚ) : SegInfo :=
  let scan := segScan progress segmentProgressThresholds 0 0
    (segmentProgressThresholds.length - 1)
  let currentSegment := scan.1
  let segmentStartProgress := scan.2
  let segmentEndProgress := jsOrNum (segmentProgressThresholds.getD currentSegment 0) 1
  let segmentDuration := segmentEndProgress - segmentStartProgress
  let segmentProgress :=
    if segmentDuration > 0 then min ((progress - segmentStartProgress) / segmentDuration) 1
    else 1
  ⟨currentSegment, segmentStartProgress, segmentProgress⟩

end ZoomUtils

/-! ## Real-valued helpers

`Math.atan2` and the trigonometric Haversine formula are modelled over `ℝ`.
Comparisons of such real quantities in the source are modelled with a
classical conditional `rif`, since they are not decidable in Lean. -/

/-- Classical conditional, for source-level branches whose condition is a
comparison of transcendental real quantities. -/
noncomputable def rif (p : Prop) {α : Sort _} (a b : α) : α :=
  @ite _ p (Classical.propDecidable p) a b

theorem rif_pos {p : Prop} {α : Sort _} {a b : α} (h : p) : rif p a b = a := by
  rw [rif, if_pos h]

theorem rif_neg {p : Prop} {α : Sort _} {a b : α} (h : ¬p) : rif p a b = b := by
  rw [rif, if_neg h]

/-- JS `Math.atan2(y, x)`: angle of the vector `(x, y)`, in `(-π, π]`. -/
noncomputable def atan2 (y x : ℝ) : ℝ :=
  if 0 < x then Real.arctan (y / x)
  else if x < 0 then
    (if 0 ≤ y then Real.arctan (y / x) + Real.pi else Real.arctan (y / x) - Real.pi)
  else
    (if 0 < y then Real.pi / 2 else if y < 0 then -(Real.pi / 2) else 0)

/-- The angle-normalization loop pair used throughout the source
(`icon-renderer.js:68-69,73-74,82-83`, `map-init.js:769-770,785-786`):

    while (a > 180) a -= 360;
    while (a < -180) a += 360;

written in closed form (the first loop runs `⌈(a-180)/360⌉` times when it
runs at all, the second `⌈(-180-a)/360⌉` times; the lemmas
`wrapAngle_sub360`, `wrapAngle_add360` and `wrapAngle_of_mem` below verify
the loop equations). -/
noncomputable def wrapAngle (a : ℝ) : ℝ :=
  if 180 < a then a - 360 * ⌈(a - 180) / 360⌉
  else if a < -180 then a + 360 * ⌈(-180 - a) / 360⌉
  else a

theorem wrapAngle_of_mem {a : ℝ} (h1 : -180 ≤ a) (h2 : a ≤ 180) : wrapAngle a = a := by
  rw [wrapAngle, if_neg (by linarith), if_neg (by linarith)]

theorem wrapAngle_sub360 {a : ℝ} (h : 180 < a) : wrapAngle a = wrapAngle (a - 360) := by
  rcases le_or_lt (a - 360) 180 with h' | h'
  · have hceil : ⌈(a - 180) / 360⌉ = 1 := by
      have h0 : (0 : ℝ) < (a - 180) / 360 := div_pos (by linarith) (by norm_num)
      have h1 : (a - 180) / 360 ≤ 1 := by
        rw [div_le_one (by norm_num)]; linarith
      rw [Int.ceil_eq_iff]
      constructor
      · push_cast; linarith
      · push_cast; linarith
    rw [wrapAngle, if_pos h, hceil, wrapAngle_of_mem (by linarith) (by linarith)]
    push_cast
    ring
  · have key : (a - 180) / 360 = (a - 360 - 180) / 360 + 1 := by ring
    rw [wrapAngle, if_pos h, wrapAngle, if_pos h', key, Int.ceil_add_one]
    push_cast
    ring

theorem wrapAngle_add360 {a : ℝ} (h : a < -180) : wrapAngle a = wrapAngle (a + 360) := by
  rcases le_or_lt (-180) (a + 360) with h' | h'
  · have hceil : ⌈(-180 - a) / 360⌉ = 1 := by
      have h0 : (0 : ℝ) < (-180 - a) / 360 := div_pos (by linarith) (by norm_num)
      have h1 : (-180 - a) / 360 ≤ 1 := by
        rw [div_le_one (by norm_num)]; linarith
      rw [Int.ceil_eq_iff]
      constructor
      · push_cast; linarith
      · push_cast; linarith
    rw [wrapAngle, if_neg (by linarith), if_pos h, hceil,
      wrapAngle_of_mem h' (by linarith)]
    push_cast
    ring
  · have key : (-180 - a) / 360 = (-180 - (a + 360)) / 360 + 1 := by ring
    rw [wrapAngle, if_neg (by linarith), if_pos h, wrapAngle,
      if_neg (by linarith), if_pos h', key, Int.ceil_add_one]
    push_cast
    ring

/-- The normalization lands in `[-180, 180]`. -/
theorem wrapAngle_mem (a : ℝ) : -180 ≤ wrapAngle a ∧ wrapAngle a ≤ 180 := by
  rw [wrapAngle]
  split_ifs with h1 h2
  · have hu : ((a - 180) / 360 : ℝ) ≤ (⌈(a - 180) / 360⌉ : ℝ) := Int.le_ceil _
    have hl : ((⌈(a - 180) / 360⌉ : ℤ) : ℝ) < (a - 180) / 360 + 1 :=
      Int.ceil_lt_add_one _
    constructor
    · nlinarith
    · nlinarith
  · have hu : ((-180 - a) / 360 : ℝ) ≤ (⌈(-180 - a) / 360⌉ : ℝ) := Int.le_ceil _
    have hl : ((⌈(-180 - a) / 360⌉ : ℤ) : ℝ) < (-180 - a) / 360 + 1 :=
      Int.ceil_lt_add_one _
    constructor
    · nlinarith
    · nlinarith
  · exact ⟨by linarith, by linarith⟩

/-- Adding a whole number of turns does not change the normalized angle,
provided the representative is interior to the range. -/
theorem wrapAngle_add_int {y : ℝ} (j : ℤ) (h1 : -180 < y) (h2 : y < 180) :
    wrapAngle (y + 360 * j) = y := by
  rcases lt_trichotomy j 0 with hj | hj | hj
  · have hlt : y + 360 * j < -180 := by
      have : (j : ℝ) ≤ -1 := by exact_mod_cast Int.le_sub_one_of_lt hj
      nlinarith
    have hceil : ⌈(-180 - (y + 360 * j)) / 360⌉ = -j := by
      have key : (-180 - (y + 360 * j)) / 360 = (-180 - y) / 360 + (-j : ℤ) := by
        push_cast; ring
      rw [key, Int.ceil_add_int]
      have : ⌈(-180 - y) / 360⌉ = 0 := by
        rw [Int.ceil_eq_zero_iff, Set.mem_Ioc]
        constructor
        · rw [lt_div_iff₀ (by norm_num : (0 : ℝ) < 360)]; linarith
        · rw [div_nonpos_iff]; right; exact ⟨by linarith, by norm_num⟩
      rw [this]; ring
    rw [wrapAngle, if_neg (by linarith), if_pos hlt, hceil]
    push_cast
    ring
  · subst hj
    rw [Int.cast_zero, mul_zero, add_zero,
      wrapAngle_of_mem (by linarith) (by linarith)]
  · have hgt : 180 < y + 360 * j := by
      have : (1 : ℝ) ≤ (j : ℝ) := by exact_mod_cast hj
      nlinarith
    have hceil : ⌈(y + 360 * j - 180) / 360⌉ = j := by
      have key : (y + 360 * j - 180) / 360 = (y - 180) / 360 + (j : ℤ) := by
        ring
      rw [key, Int.ceil_add_int]
      have : ⌈(y - 180) / 360⌉ = 0 := by
        rw [Int.ceil_eq_zero_iff, Set.mem_Ioc]
        constructor
        · rw [lt_div_iff₀ (by norm_num : (0 : ℝ) < 360)]; linarith
        · rw [div_nonpos_iff]; right; exact ⟨by linarith, by norm_num⟩
      rw [this]; ring
    rw [wrapAngle, if_pos hgt, hceil]
    ring

/-- `wrapAngle` only shifts its input by whole turns. -/
theorem wrapAngle_sub_turns (a : ℝ) : ∃ j : ℤ, wrapAngle a = a + 360 * j := by
  rw [wrapAngle]
  split_ifs
  · exact ⟨-⌈(a - 180) / 360⌉, by push_cast; ring⟩
  · exact ⟨⌈(-180 - a) / 360⌉, by ring⟩
  · exact ⟨0, by norm_num⟩

namespace IconRenderer

/-- One entry of `ICON_CONFIG` (`icon-renderer.js:16-37`). -/
structure IconConfig where
  defaultFacing : String
  rotates : Bool
  size : ℚ
deriving Repr, DecidableEq

/-- The `ICON_CONFIG` object literal (`icon-renderer.js:16-37`); `none`
models a missing key. -/
def iconConfigEntry : String → Option IconConfig
  | "bike" => some ⟨"left", true, 60⟩
  | "car" => some ⟨"right", true, 60⟩
  | "person" => some ⟨"right", false, 40⟩
  | "backpacker" => some ⟨"left", false, 35⟩
  | _ => none

/-- `ICON_CONFIG[iconType] || ICON_CONFIG.person` (`icon-renderer.js:52`). -/
def lookupIconConfig (iconType : String) : IconConfig :=
  (iconConfigEntry iconType).getD ⟨"right", false, 40⟩

/-- Return value of `calculateIconTransform` (`icon-renderer.js:106-110`). -/
structure IconTransformResult where
  angle : ℝ
  scaleX : ℤ
  newLastAngle : ℝ

/-- `calculateIconTransform(iconType, dx, dy, lastAngle, interpolationFactor)`
(`icon-renderer.js:51-111`).  The three `while` normalization loop pairs of
the source are `wrapAngle`; the real-valued comparison `|angleDiff| > 0.5`
is the classical conditional `rif`. -/
noncomputable def calculateIconTransform (iconType : String) (dx dy : ℝ)
    (lastAngle : ℝ) (interpolationFactor : ℝ := 0.15) : IconTransformResult :=
  let config := lookupIconConfig iconType
  let directionAngle := atan2 dy dx * 180 / Real.pi
  if config.rotates then
    -- targetAngle = 180 - directionAngle, normalized to [-180, 180]
    let targetAngle := wrapAngle (180 - directionAngle)
    let angleDiff := wrapAngle (targetAngle - lastAngle)
    let blended :=
      rif (0.5 < |angleDiff|) (lastAngle + angleDiff * interpolationFactor) lastAngle
    let final := wrapAngle blended
    ⟨final, 1, final⟩
  else
    -- non-rotating icons stay upright; only the mirror flag toggles on dx < 0
    let scaleX : ℤ :=
      if config.defaultFacing = "right" then rif (dx < 0) (-1) 1
      else rif (dx < 0) 1 (-1)
    ⟨0, scaleX, 0⟩

end IconRenderer

namespace AnimationCore

open ZoomUtils

/-! ### Haversine distance (`map-init.js:277-310`) -/

/-- One consecutive-pair contribution of the Haversine loop
(`map-init.js:288-300`): Earth radius 6371 km. -/
noncomputable def haversineDistance (p q : ℚ × ℚ) : ℝ :=
  let lat1 : ℝ := (p.1 : ℝ)
  let lon1 : ℝ := (p.2 : ℝ)
  let lat2 : ℝ := (q.1 : ℝ)
  let lon2 : ℝ := (q.2 : ℝ)
  let dLat := (lat2 - lat1) * Real.pi / 180
  let dLon := (lon2 - lon1) * Real.pi / 180
  let a := Real.sin (dLat / 2) * Real.sin (dLat / 2) +
    Real.cos (lat1 * Real.pi / 180) * Real.cos (lat2 * Real.pi / 180) *
      Real.sin (dLon / 2) * Real.sin (dLon / 2)
  let c := 2 * atan2 (Real.sqrt a) (Real.sqrt (1 - a))
  6371 * c

/-- The inner `for` loop of `calculateTotalHikingDistance`
(`map-init.js:288-301`): sum of Haversine distances over consecutive
coordinate pairs of one segment. -/
noncomputable def polylineDistance : List (ℚ × ℚ) → ℝ
  | p :: q :: rest => haversineDistance p q + polylineDistance (q :: rest)
  | _ => 0

/-- `calculateTotalHikingDistance(routeSegments)` (`map-init.js:277-310`):
only segments with `travelMode === 'hike'` contribute. -/
noncomputable def calculateTotalHikingDistance (routeSegments : List Segment) : ℝ :=
  routeSegments.foldl
    (fun totalDistance segment =>
      if segment.travelMode = "hike" then totalDistance + polylineDistance segment.coordinates
      else totalDistance)
    0

/-! ### Animation state (`map-init.js:315-349`) and drawing surface -/

/-- `state.lastAngles` (`map-init.js:318`). -/
structure LastAngles where
  bike : ℝ
  car : ℝ
  person : ℝ
  backpacker : ℝ

/-- A Leaflet circle marker as the Core uses it: position, fill colour,
and the one style property the Core ever mutates (`fillOpacity`). -/
structure Marker where
  pos : ℚ × ℚ
  fillColor : String
  fillOpacity : ℚ
deriving Repr, DecidableEq

/-- A Leaflet `divIcon` text label: position, html content, opacity. -/
structure TextLabel where
  pos : ℚ × ℚ
  html : String
  opacity : ℚ
deriving Repr, DecidableEq

/-- The CSS transform strings the Core assigns to an icon element. -/
inductive IconCss
  | initial
  | scaleXRotate (scaleX : ℤ) (deg : ℝ)
  | scaleXOnly (scaleX : ℤ)

/-- One of the four absolutely-positioned DOM icon elements. -/
structure IconEl where
  display : Bool
  opacity : ℚ
  left : ℚ
  top : ℚ
  transform : IconCss
  transformOriginCenter : Bool

/-- The map camera as last commanded by the Core (`map.fitBounds` with a
padding, or `map.setView` with an animate flag). -/
inductive MapCamera
  | initial
  | fitted (padding : ℚ × ℚ)
  | view (lat lng zoom : ℚ) (animate : Bool)

/-- Content of the destination card's `.destination-text` node
(`map-init.js:836-845`). -/
inductive DestCardText
  | initial
  | plain (dest : String)
  | withDistance (dest : String) (km : ℝ)

/-- The DOM elements handed to `renderFrame` plus the map camera: the
Core's drawing surface. -/
structure Elements where
  titleCardOpacity : ℚ
  titleCardContent : Option (String × String)
  dateStampText : Option String
  dateStampOpacity : ℚ
  destinationCardOpacity : ℚ
  destinationCardText : DestCardText
  motorcycle : IconEl
  person : IconEl
  car : IconEl
  backpacker : IconEl
  camera : MapCamera

/-- `createAnimationState()` (`map-init.js:315-349`).  `animatedLine`
models the polyline layer currently drawn on the map; marker/label
objects live here since the Core owns them. -/
structure AnimState where
  lastAngles : LastAngles
  cameraLat : Option ℚ
  cameraLng : Option ℚ
  cameraZoom : Option ℚ
  animatedLine : Option (List (ℚ × ℚ))
  startMarker : Option Marker
  startLabel : Option TextLabel
  endMarker : Option Marker
  endLabel : Option TextLabel
  waypointMarkers : List Marker
  waypointLabels : List TextLabel
  waypointShown : List Bool
  waypointFadedOut : List Bool
  titleCardShown : Bool
  dateStampShown : Bool
  startMarkerPlaced : Bool
  endMarkerPlaced : Bool
  iconsSetup : Bool
  lastPausedAfterSegment : ℤ
  isPaused : Bool
  pauseProgress : ℚ
  currentPauseDuration : ℚ

/-- Fresh animation state (`map-init.js:315-349`). -/
def createAnimationState : AnimState where
  lastAngles := ⟨0, 0, 0, 0⟩
  cameraLat := none
  cameraLng := none
  cameraZoom := none
  animatedLine := none
  startMarker := none
  startLabel := none
  endMarker := none
  endLabel := none
  waypointMarkers := []
  waypointLabels := []
  waypointShown := []
  waypointFadedOut := []
  titleCardShown := false
  dateStampShown := false
  startMarkerPlaced := false
  endMarkerPlaced := false
  iconsSetup := false
  lastPausedAfterSegment := -1
  isPaused := false
  pauseProgress := 0
  currentPauseDuration := 0

/-- The mutable state threaded through one `renderFrame` call: the
animation state object plus the drawing surface. -/
structure RState where
  state : AnimState
  els : Elements

/-! ### Animation config (`map-init.js:354-397`) -/

/-- JS `a || d` for a possibly-missing string: `undefined`, `null` and the
empty string are falsy. -/
def jsOrStr (a : Option String) (d : String) : String :=
  match a with
  | none => d
  | some s => if s = "" then d else s

/-- The options record consumed by `createAnimationConfig`. -/
structure CoreOptions where
  startZoomLevel : Option ℚ := none
  lineColor : Option String := none
  lineWidth : Option ℚ := none
  title : Option String := none
  date : Option String := none
  finalDestination : Option String := none

/-- `createAnimationConfig`'s result (`map-init.js:380-396`); `bounds` is
kept only through the derived `overviewZoom`/`overviewCenter`. -/
structure AnimConfig where
  allCoordinates : List (ℚ × ℚ)
  segmentProgressThresholds : List ℚ
  segmentZoomLevels : List ℚ
  zoomKeyframes : List Keyframe
  closeZoom : ℚ
  overviewZoom : ℚ
  overviewCenter : ℚ × ℚ
  segmentPauses : List ℚ
  lineColor : String
  lineWidth : ℚ
  title : String
  date : String
  finalDestination : String
  startLabel : String

/-- `createAnimationConfig(map, routeSegments, options)`
(`map-init.js:354-397`).  The Leaflet bounds calls are abstracted as in
`calculateSegmentZoomLevels`: `getBoundsZoom coords padding` stands for
`map.getBoundsZoom(L.latLngBounds(coords), false, padding)` and
`getCenter coords` for `L.latLngBounds(coords).getCenter()`. -/
def createAnimationConfig (getBoundsZoom : List (ℚ × ℚ) → ℚ × ℚ → ℚ)
    (getCenter : List (ℚ × ℚ) → ℚ × ℚ) (routeSegments : List Segment)
    (options : CoreOptions) : AnimConfig :=
  let allCoordinates := routeSegments.flatMap (fun seg => seg.coordinates)
  let segmentProgressThresholds := calculateSegmentProgressThresholds routeSegments
  let segmentZoomLevels := calculateSegmentZoomLevels getBoundsZoom routeSegments
    allCoordinates { maxZoom := some 15, defaultCloseZoom := some 13 }
  let zoomKeyframes := createZoomKeyframes segmentZoomLevels segmentProgressThresholds
  -- closeZoom = options.startZoomLevel || segmentZoomLevels[0] || 13
  let closeZoom := jsOr options.startZoomLevel
    (jsOr segmentZoomLevels.head? 13)
  let overviewZoom := getBoundsZoom allCoordinates (50, 50)
  let overviewCenter := getCenter allCoordinates
  -- seg.pause !== undefined ? seg.pause : 0.5
  let segmentPauses := routeSegments.map (fun seg => seg.pause.getD 0.5)
  { allCoordinates := allCoordinates
    segmentProgressThresholds := segmentProgressThresholds
    segmentZoomLevels := segmentZoomLevels
    zoomKeyframes := zoomKeyframes
    closeZoom := closeZoom
    overviewZoom := overviewZoom
    overviewCenter := overviewCenter
    segmentPauses := segmentPauses
    lineColor := jsOrStr options.lineColor "#8B4513"
    lineWidth := jsOr options.lineWidth 4
    title := jsOrStr options.title "ADVENTURE"
    date := (options.date).getD ""
    finalDestination := jsOrStr options.finalDestination "DESTINATION"
    startLabel := jsOrStr (routeSegments.head?.bind (fun s => s.fromLabel)) "START" }

/-! ### renderFrame (`map-init.js:414-852`) -/

/-- The four phases (`params.phase`), traversed title → pan → route → end. -/
inductive Phase
  | title
  | pan
  | route
  | ending
deriving Repr, DecidableEq

/-- `renderFrame`'s return object: `{ shouldPause }` or
`{ shouldPause, pauseDuration, pauseAtSegment }`. -/
structure RenderResult where
  shouldPause : Bool
  pauseDuration : Option ℚ
  pauseAtSegment : Option ℤ
deriving Repr, DecidableEq

/-- `{ shouldPause: false }`. -/
def noPause : RenderResult := ⟨false, none, none⟩

/-- `params.smoothing`: `{ position, zoom, animate }`. -/
structure Smoothing where
  position : ℚ
  zoom : ℚ
  animate : Bool
deriving Repr, DecidableEq

/-- The params object of `renderFrame` (`map-init.js:414-415`) minus the
mutable `state`/`elements`, which are threaded separately.  The external
surface call `map.latLngToContainerPoint` is the `latLngToContainerPoint`
field. -/
structure RenderParams where
  phase : Phase
  phaseProgress : ℚ
  config : AnimConfig
  routeSegments : List Segment
  smoothing : Smoothing
  latLngToContainerPoint : (ℚ × ℚ) → ℚ × ℚ

/-- Placeholder for an out-of-range JS array access to `routeSegments`
(which would be `undefined` and crash on field access; all theorems below
stay in range). -/
def defaultSegment : Segment := ⟨[], "", none, none, "", none, none⟩

/-- Title phase (`map-init.js:419-437`). -/
def renderTitle (p : RenderParams) (rs : RState) : RState × RenderResult :=
  let opacity :=
    if p.phaseProgress < 0.15 then p.phaseProgress / 0.15
    else if p.phaseProgress > 0.85 then (1 - p.phaseProgress) / 0.15
    else 1
  let els1 := { rs.els with
    titleCardOpacity := opacity
    titleCardContent := some (p.config.title, p.config.date) }
  if p.phaseProgress = 0 ∨ ¬rs.state.titleCardShown then
    ({ state := { rs.state with titleCardShown := true }
       els := { els1 with camera := .fitted (50, 50) } }, noPause)
  else
    ({ rs with els := els1 }, noPause)

/-- Post-title housekeeping on every non-title call (`map-init.js:440-447`):
hide the title card, reveal the corner stamp once. -/
def afterTitle (p : RenderParams) (rs : RState) : RState :=
  let els1 := { rs.els with titleCardOpacity := 0 }
  if ¬rs.state.dateStampShown then
    { state := { rs.state with dateStampShown := true }
      els := { els1 with
        dateStampText := some p.config.title.toUpper
        dateStampOpacity := 1 } }
  else
    { rs with els := els1 }

/-- Pan phase (`map-init.js:450-502`): ease-out-cubic target, exponentially
smoothed camera. -/
def renderPan (p : RenderParams) (rs : RState) : RState × RenderResult :=
  let cfg := p.config
  let rs1 :=
    if ¬rs.state.startMarkerPlaced then
      { rs with state := { rs.state with
          startMarker := some ⟨cfg.allCoordinates.getD 0 (0, 0), "#8B0000", 0.9⟩
          startLabel := some ⟨cfg.allCoordinates.getD 0 (0, 0), cfg.startLabel, 1⟩
          startMarkerPlaced := true
          cameraLat := some cfg.overviewCenter.1
          cameraLng := some cfg.overviewCenter.2
          cameraZoom := some cfg.overviewZoom } }
    else rs
  let startCoord := cfg.allCoordinates.getD 0 (0, 0)
  let easeProgress := 1 - (1 - p.phaseProgress) ^ 3
  let targetLat := cfg.overviewCenter.1 + (startCoord.1 - cfg.overviewCenter.1) * easeProgress
  let targetLng := cfg.overviewCenter.2 + (startCoord.2 - cfg.overviewCenter.2) * easeProgress
  let targetZoom := cfg.overviewZoom + (cfg.closeZoom - cfg.overviewZoom) * easeProgress
  let cameraLat := rs1.state.cameraLat.getD 0 +
    (targetLat - rs1.state.cameraLat.getD 0) * p.smoothing.position
  let cameraLng := rs1.state.cameraLng.getD 0 +
    (targetLng - rs1.state.cameraLng.getD 0) * p.smoothing.position
  let cameraZoom := rs1.state.cameraZoom.getD 0 +
    (targetZoom - rs1.state.cameraZoom.getD 0) * p.smoothing.zoom
  ({ state := { rs1.state with
       cameraLat := some cameraLat
       cameraLng := some cameraLng
       cameraZoom := some cameraZoom }
     els := { rs1.els with
       camera := .view cameraLat cameraLng cameraZoom p.smoothing.animate } },
   noPause)

/-- JS truthiness of `routeSegments[i].toLabel` (`map-init.js:527`). -/
def hasToLabel (seg : Segment) : Bool :=
  match seg.toLabel with
  | none => false
  | some s => s ≠ ""

/-- One-time route furniture setup (`map-init.js:505-556`): hidden end
marker/label, one hidden marker+label pair per labelled intermediate leg,
parallel `shown`/`fadedOut` flag arrays. -/
def setupRouteFurniture (p : RenderParams) (rs : RState) : RState :=
  if rs.state.endMarkerPlaced then rs
  else
    let cfg := p.config
    let lastCoord := cfg.allCoordinates.getLastD (0, 0)
    let labeled := (p.routeSegments.take (p.routeSegments.length - 1)).filter hasToLabel
    { rs with state := { rs.state with
        endMarker := some ⟨lastCoord, "#006400", 0⟩
        endLabel := some ⟨lastCoord, cfg.finalDestination, 0⟩
        waypointMarkers := rs.state.waypointMarkers ++ labeled.map (fun seg =>
          ⟨seg.coordinates.getLastD (0, 0), "#FF8C00", 0⟩)
        waypointLabels := rs.state.waypointLabels ++ labeled.map (fun seg =>
          ⟨seg.coordinates.getLastD (0, 0), seg.toLabel.getD "", 0⟩)
        waypointShown := rs.state.waypointShown ++ labeled.map (fun _ => false)
        waypointFadedOut := rs.state.waypointFadedOut ++ labeled.map (fun _ => false)
        endMarkerPlaced := true } }

/-- One-time icon display setup (`map-init.js:559-565`). -/
def setupIcons (rs : RState) : RState :=
  if rs.state.iconsSetup then rs
  else
    { state := { rs.state with iconsSetup := true }
      els := { rs.els with
        motorcycle := { rs.els.motorcycle with display := true }
        person := { rs.els.person with display := true }
        car := { rs.els.car with display := true }
        backpacker := { rs.els.backpacker with display := true } } }

/-- The fade-in threshold for waypoint `i` (`map-init.js:589-591`):
`thresholds[0] * 0.33` for the first waypoint, otherwise
`thresholds[i] - (thresholds[i] - (thresholds[i-1] || 0)) * 0.67`. -/
def showThreshold (thresholds : List ℚ) (i : ℕ) : ℚ :=
  if i = 0 then thresholds.getD 0 0 * 0.33
  else thresholds.getD i 0 -
    (thresholds.getD i 0 - jsOr (thresholds.get? (i - 1)) 0) * 0.67

/-- One iteration of the waypoint label loop (`map-init.js:587-606`) at one
index; `visited` stands for `currentSegment > i`. -/
def waypointStep (routeProgress thr : ℚ) (visited : Bool) (segmentProgress : ℚ)
    (m : Marker) (l : TextLabel) (shown fadedOut : Bool) :
    Marker × TextLabel × Bool × Bool :=
  let fadeIn := !shown && decide (routeProgress ≥ thr)
  let m1 := if fadeIn then { m with fillOpacity := 0.9 } else m
  let l1 := if fadeIn then { l with opacity := 1 } else l
  let shown1 := shown || fadeIn
  let fadeOut := shown1 && !fadedOut && visited && decide (segmentProgress > 0.2)
  let m2 := if fadeOut then { m1 with fillOpacity := 0 } else m1
  let l2 := if fadeOut then { l1 with opacity := 0 } else l1
  (m2, l2, shown1, fadedOut || fadeOut)

/-- The waypoint label loop (`map-init.js:587-606`). -/
def updateWaypoints (p : RenderParams) (routeProgress : ℚ) (currentSegment : ℕ)
    (segmentProgress : ℚ) (s : AnimState) : AnimState :=
  let stepped := (List.range s.waypointMarkers.length).map (fun i =>
    waypointStep routeProgress (showThreshold p.config.segmentProgressThresholds i)
      (decide (currentSegment > i)) segmentProgress
      (s.waypointMarkers.getD i ⟨(0, 0), "", 0⟩)
      (s.waypointLabels.getD i ⟨(0, 0), "", 0⟩)
      (s.waypointShown.getD i false)
      (s.waypointFadedOut.getD i false))
  { s with
    waypointMarkers := stepped.map (fun r => r.1)
    waypointLabels := stepped.map (fun r => r.2.1)
    waypointShown := stepped.map (fun r => r.2.2.1)
    waypointFadedOut := stepped.map (fun r => r.2.2.2) }

/-- Which DOM element `currentIcon` points to (`map-init.js:627-641`). -/
inductive IconSel
  | motorcycle
  | person
  | car
  | backpacker
deriving Repr, DecidableEq

/-- Branch structure of `map-init.js:628-640`. -/
def selectIcon (currentIconType : String) : IconSel :=
  if currentIconType = "bike" then .motorcycle
  else if currentIconType = "car" then .car
  else if currentIconType = "backpacker" then .backpacker
  else .person

/-- Field update of one of the four icon elements. -/
def setIconEl (els : Elements) (sel : IconSel) (f : IconEl → IconEl) : Elements :=
  match sel with
  | .motorcycle => { els with motorcycle := f els.motorcycle }
  | .person => { els with person := f els.person }
  | .car => { els with car := f els.car }
  | .backpacker => { els with backpacker := f els.backpacker }

/-- The car rotation update (`map-init.js:760-775`): mirror when heading
left, shortest-path wrap of the delta, smoothing factor 0.03, dead zone 5°. -/
noncomputable def carRotation (direction lastCar : ℝ) : ℤ × ℝ :=
  let scaleX : ℤ := rif (90 < |direction|) (-1) 1
  let tilt := rif (90 < |direction|)
    (rif (0 < direction) (-(direction - 180)) (-(direction + 180))) direction
  let angleDiff := wrapAngle (tilt - lastCar)
  let newCar := rif (5 < |angleDiff|) (lastCar + angleDiff * 0.03) lastCar
  (scaleX, newCar)

/-- The bike rotation update (`map-init.js:777-791`). -/
noncomputable def bikeRotation (direction lastBike : ℝ) : ℤ × ℝ :=
  let scaleX : ℤ := rif (|direction| ≤ 90) (-1) 1
  let tilt := rif (|direction| ≤ 90) (-direction)
    (rif (0 < direction) (direction - 180) (direction + 180))
  let angleDiff := wrapAngle (tilt - lastBike)
  let newBike := rif (5 < |angleDiff|) (lastBike + angleDiff * 0.03) lastBike
  (scaleX, newBike)

/-- Icon placement and orientation (`map-init.js:733-804`): place the icon
at the head of the drawn line; orient it from a 300-point look-ahead
direction sample when that sample is long enough on screen. -/
noncomputable def positionIcon (p : RenderParams) (currentIconType : String)
    (sel : Option IconSel) (visibleCoords coordinates : List (ℚ × ℚ))
    (safeIndex : ℕ) (rs : RState) : RState :=
  match sel with
  | none => rs
  | some icon =>
    if visibleCoords.length > 0 then
      let currentPos := visibleCoords.getLastD (0, 0)
      let point := p.latLngToContainerPoint currentPos
      let iconSize : ℚ :=
        if currentIconType = "bike" ∨ currentIconType = "car" then 60
        else if currentIconType = "backpacker" then 35
        else 40
      let iconOffset := iconSize / 2
      let els1 := setIconEl rs.els icon (fun e =>
        { e with
          left := point.1 - iconOffset
          top := point.2 - iconOffset })
      let lookAhead := min (coordinates.length - 1) (safeIndex + 300)
      let fromPos := coordinates.getD safeIndex (0, 0)
      let toPos := coordinates.getD lookAhead (0, 0)
      let fromPoint := p.latLngToContainerPoint fromPos
      let toPoint := p.latLngToContainerPoint toPos
      let dx := toPoint.1 - fromPoint.1
      let dy := toPoint.2 - fromPoint.2
      if |dx| > 5 ∨ |dy| > 5 then
        let direction := atan2 (dy : ℝ) (dx : ℝ) * 180 / Real.pi
        if currentIconType = "car" then
          let r := carRotation direction rs.state.lastAngles.car
          { state := { rs.state with
              lastAngles := { rs.state.lastAngles with car := r.2 } }
            els := setIconEl els1 icon (fun e =>
              { e with
                transform := .scaleXRotate r.1 r.2
                transformOriginCenter := true }) }
        else if currentIconType = "bike" then
          let r := bikeRotation direction rs.state.lastAngles.bike
          { state := { rs.state with
              lastAngles := { rs.state.lastAngles with bike := r.2 } }
            els := setIconEl els1 icon (fun e =>
              { e with
                transform := .scaleXRotate r.1 r.2
                transformOriginCenter := true }) }
        else
          let travelingLeft := decide (dx < 0)
          let sx : ℤ :=
            if currentIconType = "backpacker" then (if travelingLeft then 1 else -1)
            else (if travelingLeft then -1 else 1)
          { rs with els := setIconEl els1 icon (fun e =>
              { e with
                transform := .scaleXOnly sx
                transformOriginCenter := true }) }
      else { rs with els := els1 }
    else rs

/-- The route-phase body after the pause check (`map-init.js:586-811`). -/
noncomputable def routeBody (p : RenderParams) (routeProgress : ℚ)
    (currentSegment : ℕ) (segmentProgress : ℚ) (rs : RState) : RState :=
  let cfg := p.config
  let s1 := updateWaypoints p routeProgress currentSegment segmentProgress rs.state
  let currentIconType := (p.routeSegments.getD currentSegment defaultSegment).icon
  let nextSegment := currentSegment + 1
  let nextIconType : Option String :=
    if nextSegment < p.routeSegments.length then
      some (p.routeSegments.getD nextSegment defaultSegment).icon
    else none
  let iconWillChange :=
    match nextIconType with
    | none => false
    | some t => if t = "" then false else decide (t ≠ currentIconType)
  let shouldFadeOutEarly := iconWillChange && decide (segmentProgress > 0.95)
  let els1 := { rs.els with
    motorcycle := { rs.els.motorcycle with opacity := 0 }
    person := { rs.els.person with opacity := 0 }
    car := { rs.els.car with opacity := 0 }
    backpacker := { rs.els.backpacker with opacity := 0 } }
  let sel : Option IconSel :=
    if currentIconType ≠ "none" ∧ ¬shouldFadeOutEarly then some (selectIcon currentIconType)
    else none
  let els2 :=
    match sel with
    | some icon => setIconEl els1 icon (fun e => { e with opacity := 1 })
    | none => els1
  let targetZoom := getInterpolatedZoom routeProgress cfg.zoomKeyframes
  let coordinates := (p.routeSegments.getD currentSegment defaultSegment).coordinates
  let totalPoints : ℚ := (coordinates.length : ℚ) - 1
  let currentFloat := segmentProgress * totalPoints
  let currentIndex : ℤ := ⌊currentFloat⌋
  let fraction := currentFloat - currentIndex
  let safeIndex : ℕ := (max 0 (min currentIndex ((coordinates.length : ℤ) - 1))).toNat
  let safeNextIndex : ℕ := min (safeIndex + 1) (coordinates.length - 1)
  let vehiclePos : ℚ × ℚ :=
    if safeIndex < coordinates.length - 1 ∧ fraction > 0 then
      let current := coordinates.getD safeIndex (0, 0)
      let next := coordinates.getD safeNextIndex (0, 0)
      (current.1 + (next.1 - current.1) * fraction,
       current.2 + (next.2 - current.2) * fraction)
    else coordinates.getD safeIndex (0, 0)
  let lookAheadDistance : ℕ := min 30 (coordinates.length - safeIndex - 1)
  let lookAheadIndex : ℕ := min (safeIndex + lookAheadDistance) (coordinates.length - 1)
  let lookAheadPos := coordinates.getD lookAheadIndex (0, 0)
  let zoomOutFactor := max 0 ((14 - targetZoom) / 4)
  let lookAheadBlend := 0.1 * zoomOutFactor
  let targetLat := vehiclePos.1 + (lookAheadPos.1 - vehiclePos.1) * lookAheadBlend
  let targetLng := vehiclePos.2 + (lookAheadPos.2 - vehiclePos.2) * lookAheadBlend
  let s2 :=
    if s1.cameraLat = none then
      { s1 with
        cameraLat := some targetLat
        cameraLng := some targetLng
        cameraZoom := some targetZoom }
    else s1
  let cameraLat := s2.cameraLat.getD 0 + (targetLat - s2.cameraLat.getD 0) * p.smoothing.position
  let cameraLng := s2.cameraLng.getD 0 + (targetLng - s2.cameraLng.getD 0) * p.smoothing.position
  let cameraZoom := s2.cameraZoom.getD 0 + (targetZoom - s2.cameraZoom.getD 0) * p.smoothing.zoom
  let s3 := { s2 with
    cameraLat := some cameraLat
    cameraLng := some cameraLng
    cameraZoom := some cameraZoom }
  let els3 := { els2 with camera := .view cameraLat cameraLng cameraZoom p.smoothing.animate }
  let visibleCoords :=
    coordinates.take (safeIndex + 1) ++
      (if safeIndex < coordinates.length - 1 ∧ fraction > 0 then
        [((coordinates.getD safeIndex (0, 0)).1 +
            ((coordinates.getD safeNextIndex (0, 0)).1 -
              (coordinates.getD safeIndex (0, 0)).1) * fraction,
          (coordinates.getD safeIndex (0, 0)).2 +
            ((coordinates.getD safeNextIndex (0, 0)).2 -
              (coordinates.getD safeIndex (0, 0)).2) * fraction)]
      else [])
  let allVisibleCoords :=
    ((p.routeSegments.take currentSegment).flatMap (fun seg => seg.coordinates)) ++
      visibleCoords
  let s4 := { s3 with animatedLine :=
    if allVisibleCoords.length > 1 then some allVisibleCoords else none }
  let rs1 := positionIcon p currentIconType sel visibleCoords coordinates safeIndex
    { state := s4, els := els3 }
  if routeProgress ≥ 0.98 ∧ rs1.state.endMarker.isSome then
    { rs1 with state := { rs1.state with
        endMarker := rs1.state.endMarker.map (fun m => { m with fillOpacity := 0.9 }) } }
  else rs1

/-- Route phase (`map-init.js:568-811`): pause check first
(`map-init.js:576-584`), then the visual updates of `routeBody`. -/
noncomputable def renderRoute (p : RenderParams) (rs : RState) : RState × RenderResult :=
  let routeProgress := p.phaseProgress
  let segInfo := getSegmentInfo routeProgress p.config.segmentProgressThresholds
  let currentSegment := segInfo.currentSegment
  let segmentProgress := segInfo.segmentProgress
  if 0 < currentSegment ∧ rs.state.lastPausedAfterSegment < (currentSegment : ℤ) - 1 then
    ({ rs with state :=
        { rs.state with lastPausedAfterSegment := (currentSegment : ℤ) - 1 } },
     { shouldPause := true
       pauseDuration := some (jsOr (p.config.segmentPauses.get? (currentSegment - 1)) 0.5)
       pauseAtSegment := some ((currentSegment : ℤ) - 1) })
  else
    (routeBody p routeProgress currentSegment segmentProgress rs, noPause)

/-- End phase (`map-init.js:815-849`): hide icons, reveal end furniture,
fade in the destination card and its hiking-distance line. -/
noncomputable def renderEnd (p : RenderParams) (rs : RState) : RState :=
  let els1 := { rs.els with
    motorcycle := { rs.els.motorcycle with opacity := 0 }
    person := { rs.els.person with opacity := 0 }
    car := { rs.els.car with opacity := 0 }
    backpacker := { rs.els.backpacker with opacity := 0 } }
  let s1 := { rs.state with
    endMarker := rs.state.endMarker.map (fun m => { m with fillOpacity := 0.9 }) }
  let s2 :=
    if p.phaseProgress > 0.2 then
      { s1 with endLabel := s1.endLabel.map (fun l => { l with opacity := 1 }) }
    else s1
  if p.phaseProgress > 0.3 then
    let fadeProgress := min 1 ((p.phaseProgress - 0.3) / 0.3)
    let totalHikingDistance := calculateTotalHikingDistance p.routeSegments
    { state := s2
      els := { els1 with
        destinationCardOpacity := fadeProgress
        destinationCardText :=
          rif (0 < totalHikingDistance)
            (.withDistance p.config.finalDestination totalHikingDistance)
            (.plain p.config.finalDestination) } }
  else { state := s2, els := els1 }

/-- `renderFrame(params)` (`map-init.js:414-852`): title branch, post-title
housekeeping, pan branch, one-time route setup, route branch, end branch. -/
noncomputable def renderFrame (p : RenderParams) (rs : RState) : RState × RenderResult :=
  if p.phase = .title then renderTitle p rs
  else
    let rs1 := afterTitle p rs
    if p.phase = .pan then renderPan p rs1
    else
      let rs2 := setupIcons (setupRouteFurniture p rs1)
      if p.phase = .route then renderRoute p rs2
      else if p.phase = .ending then (renderEnd p rs2, noPause)
      else (rs2, noPause)

end AnimationCore

namespace FrameDriver

open AnimationCore

/-- `segmentPauseFrames` (`animate-frames.js:1019`):
`Math.floor((seg.pause || 0.5) * FPS)` with `FPS = 30`. -/
def segmentPauseFrames (routeSegments : List Segment) : List ℤ :=
  routeSegments.map (fun seg => ⌊jsOr seg.pause 0.5 * 30⌋)

/-- The exclusive prefix-sum loop building `window.cumulativePauseFrames`
(`animate-frames.js:1101-1106`): entry `i` is the total pause frames of
segments `0..i-1`. -/
def cumulativeLoop : List ℤ → ℤ → List ℤ
  | [], _ => []
  | f :: rest, sum => sum :: cumulativeLoop rest (sum + f)

/-- `window.cumulativePauseFrames` (`animate-frames.js:1101-1106`). -/
def cumulativePauseFrames (pauseFrames : List ℤ) : List ℤ :=
  cumulativeLoop pauseFrames 0

/-- `window.pauseState` (`animate-frames.js:1094-1098`). -/
structure PauseState where
  isPaused : Bool
  pauseFramesRemaining : ℤ
  lastPausedAfterSegment : ℤ
deriving Repr, DecidableEq

/-- Initial pause state (`animate-frames.js:1094-1098`). -/
def initialPauseState : PauseState := ⟨false, 0, -1⟩

/-- The frame-range constants captured by `renderCinematicFrame`
(`animate-frames.js:1070,1159`). -/
structure DriverParams where
  totalFrames : ℕ
  titleEndFrame : ℕ
  panEndFrame : ℕ
  routeEndFrame : ℕ
  cumulativePauseFrames : List ℤ
  routeOnlyFrames : ℤ

/-- The driver's full state: pause bookkeeping plus the Core state. -/
structure DriverState where
  pauseState : PauseState
  rstate : RState

/-- `window.cumulativePauseFrames[i] || 0` where `i` may be negative
(JS: a missing entry is `undefined`, hence falsy). -/
def cumulativeAt (cum : List ℤ) (i : ℤ) : ℤ :=
  if 0 ≤ i then (cum.get? i.toNat).getD 0 else 0

/-- The phase/progress computation of `renderCinematicFrame`
(`animate-frames.js:1119-1137`): frame ranges select the phase; route
progress is the frame index minus pause frames consumed so far, divided
by the pause-free route frame budget, capped at 1. -/
def driverPhaseProgress (dp : DriverParams) (lastPausedAfterSegment : ℤ)
    (frameNumber : ℕ) : Phase × ℚ :=
  if frameNumber < dp.titleEndFrame then
    (.title, (frameNumber : ℚ) / (dp.titleEndFrame : ℚ))
  else if frameNumber < dp.panEndFrame then
    (.pan, ((frameNumber : ℚ) - (dp.titleEndFrame : ℚ)) /
      ((dp.panEndFrame : ℚ) - (dp.titleEndFrame : ℚ)))
  else if frameNumber < dp.routeEndFrame then
    let routeFrameNumber : ℤ := (frameNumber : ℤ) - (dp.panEndFrame : ℤ)
    let pauseFramesSoFar :=
      cumulativeAt dp.cumulativePauseFrames (lastPausedAfterSegment + 1)
    let effectiveFrame := routeFrameNumber - pauseFramesSoFar
    (.route, min ((effectiveFrame : ℚ) / (dp.routeOnlyFrames : ℚ)) 1)
  else
    (.ending, ((frameNumber : ℚ) - (dp.routeEndFrame : ℚ)) /
      ((dp.totalFrames : ℚ) - (dp.routeEndFrame : ℚ)))

/-- `window.renderCinematicFrame(frameNumber)` (`animate-frames.js:1108-1157`):
consume a pause frame if paused, otherwise call the shared `renderFrame`
at the derived phase/progress and convert a pause request into whole pause
frames (`Math.floor(result.pauseDuration * 30)`), skipped entirely when
the duration is not positive. -/
noncomputable def renderCinematicFrame (dp : DriverParams) (config : AnimConfig)
    (routeSegments : List Segment) (smoothing : Smoothing)
    (latLngToContainerPoint : (ℚ × ℚ) → ℚ × ℚ) (frameNumber : ℕ)
    (ds : DriverState) : DriverState :=
  let ps := ds.pauseState
  if ps.isPaused then
    let remaining := ps.pauseFramesRemaining - 1
    { ds with pauseState := { ps with
        pauseFramesRemaining := remaining
        isPaused := !decide (remaining ≤ 0) } }
  else
    let phaseAndProgress : Phase × ℚ :=
      driverPhaseProgress dp ps.lastPausedAfterSegment frameNumber
    let stepOut := renderFrame
      { phase := phaseAndProgress.1
        phaseProgress := min 1 (max 0 phaseAndProgress.2)
        config := config
        routeSegments := routeSegments
        smoothing := smoothing
        latLngToContainerPoint := latLngToContainerPoint }
      ds.rstate
    let result := stepOut.2
    if result.shouldPause ∧ result.pauseDuration.getD 0 > 0 then
      { pauseState :=
          { lastPausedAfterSegment := result.pauseAtSegment.getD 0
            isPaused := true
            pauseFramesRemaining := ⌊result.pauseDuration.getD 0 * 30⌋ }
        rstate := stepOut.1 }
    else
      { pauseState := ps, rstate := stepOut.1 }

end FrameDriver

/-! ## Spec-side definitions and concrete fixtures

Definitions in the `Spec` namespace are modelled from the specification's
words, for comparison with the source-derived functions above.  The
fixtures are concrete inputs for the closed witness/counterexample
theorems. -/

namespace Spec

/-- Modelled from the spec (claim C1): local progress is
`(progress − startOfLeg) / (thresholdOfLeg − startOfLeg)` clamped to
`[0, 1]`, defined as 1 when the leg's share is zero-width; `startOfLeg`
is the previous leg's threshold, 0 for the first leg. -/
def specLocalProgress (p : ℚ) (ths : List ℚ) (leg : ℕ) : ℚ :=
  let s := if leg = 0 then 0 else ths.getD (leg - 1) 0
  let e := ths.getD leg 0
  if e - s = 0 then 1 else min (max ((p - s) / (e - s)) 0) 1

/-- Modelled from the spec (claim C9): the total distance is the Haversine
polyline distance summed over exactly the legs tagged with the hiking
travel mode; every other leg contributes nothing. -/
noncomputable def hikingOnlySum (routeSegments : List Segment) : ℝ :=
  ((routeSegments.filter (fun s => decide (s.travelMode = "hike"))).map
    (fun s => AnimationCore.polylineDistance s.coordinates)).sum

end Spec

namespace AnimationCore

/-- Repeated invocation of `renderFrame`, threading the state; returns the
per-call results (claim C2's "regardless of how many times `render` is
called"). -/
noncomputable def runCalls : List RenderParams → RState → List RenderResult
  | [], _ => []
  | q :: rest, rs =>
      let out := renderFrame q rs
      out.2 :: runCalls rest out.1

end AnimationCore

namespace IconRenderer

/-- Iterated `calculateIconTransform` with a constant direction vector,
feeding each call's `newLastAngle` into the next call's `lastAngle`
(claim C7), at the default interpolation factor. -/
noncomputable def iteratedAngle (iconType : String) (dx dy a0 : ℝ) : ℕ → ℝ
  | 0 => a0
  | n + 1 =>
      (calculateIconTransform iconType dx dy (iteratedAngle iconType dx dy a0 n)).newLastAngle

/-- The target angle of a rotating icon for heading `(dx, dy)`
(`icon-renderer.js:65-69`): `180 − atan2(dy,dx)·180/π`, wrap-normalized. -/
noncomputable def targetAngleOf (dx dy : ℝ) : ℝ :=
  wrapAngle (180 - atan2 dy dx * 180 / Real.pi)

end IconRenderer

namespace Fixtures

open AnimationCore FrameDriver

/-- Two-leg fixture route, leg A: driving with configured pause 0. -/
def segA : Segment := ⟨[(0, 0), (0, 1)], "car", some "A", some "X", "driving", none, some 0⟩

/-- Two-leg fixture route, leg B: hiking. -/
def segB : Segment := ⟨[(1, 1), (2, 2)], "car", some "X", some "Y", "hike", none, none⟩

/-- A blank DOM icon element. -/
def testIconEl : IconEl := ⟨false, 0, 0, 0, .initial, false⟩

/-- A blank drawing surface. -/
def testElements : Elements :=
  ⟨0, none, none, 0, 0, .initial, testIconEl, testIconEl, testIconEl, testIconEl, .initial⟩

/-- Fresh Core state over the blank surface. -/
def testRS : RState := ⟨createAnimationState, testElements⟩

/-- Config for the fixture route, with a constant external bounds-zoom of
10 and bounds centre (0,0). -/
def testConfig : AnimConfig :=
  createAnimationConfig (fun _ _ => 10) (fun _ => (0, 0)) [segA, segB] {}

/-- Route-phase render params at progress `p` over the fixture route, with
the frame-export smoothing profile and a constant screen projection. -/
def testParams (p : ℚ) : RenderParams :=
  ⟨.route, p, testConfig, [segA, segB], ⟨12 / 100, 6 / 100, false⟩, fun _ => (0, 0)⟩

/-- End-phase render params at progress `p` over the fixture route. -/
def testParamsEnd (p : ℚ) : RenderParams :=
  ⟨.ending, p, testConfig, [segA, segB], ⟨12 / 100, 6 / 100, false⟩, fun _ => (0, 0)⟩

/-- Driver frame-range fixture: title ends at frame 90, pan at 165, route
at 900, 1000 frames total, 10 pause-free route frames, pause frame counts
from the fixture route. -/
def testDriverParams : DriverParams :=
  ⟨1000, 90, 165, 900, cumulativePauseFrames (segmentPauseFrames [segA, segB]), 10⟩

/-- The fixture state after the one-time setup flags have been set (as a
previous route-phase call leaves them). -/
def testRSReady : RState :=
  { testRS with state := { testRS.state with
      dateStampShown := true
      endMarkerPlaced := true
      iconsSetup := true } }

end Fixtures

/-! ## Helper lemmas -/

theorem foldl_add_eq_sum (l : List ℚ) (a : ℚ) : l.foldl (· + ·) a = a + l.sum := by
  induction l generalizing a with
  | nil => simp
  | cons x xs ih => rw [List.foldl_cons, ih, List.sum_cons]; ring

namespace ZoomUtils

theorem thresholdLoop_length (T : ℚ) :
    ∀ (L : List ℚ) (c : ℚ), (thresholdLoop T L c).length = L.length := by
  intro L
  induction L with
  | nil => intro c; rfl
  | cons l rest ih => intro c; simp [thresholdLoop, ih]

theorem thresholdLoop_getD (T : ℚ) :
    ∀ (L : List ℚ) (c : ℚ) (i : ℕ), i < L.length →
      (thresholdLoop T L c).getD i 0 = c + (L.take (i + 1)).sum / T := by
  intro L
  induction L with
  | nil => intro c i hi; simp at hi
  | cons l rest ih =>
    intro c i hi
    match i with
    | 0 => simp [thresholdLoop]
    | i + 1 =>
      rw [thresholdLoop]
      simp only [List.getD_cons_succ]
      rw [ih (c + l / T) i (by simpa using hi), List.take_succ_cons, List.sum_cons,
        add_div]
      ring

/-- Thresholds have one entry per leg. -/
theorem thresholds_length (legs : List Segment) :
    (calculateSegmentProgressThresholds legs).length = legs.length := by
  simp only [calculateSegmentProgressThresholds]
  rw [thresholdLoop_length]
  simp

/-- Closed form of the `i`-th threshold: the cumulative waypoint-count
share through leg `i`. -/
theorem thresholds_getD (legs : List Segment) (i : ℕ) (hi : i < legs.length) :
    (calculateSegmentProgressThresholds legs).getD i 0 =
      ((legs.take (i + 1)).map (fun s => (s.coordinates.length : ℚ))).sum /
        (legs.map (fun s => (s.coordinates.length : ℚ))).sum := by
  simp only [calculateSegmentProgressThresholds]
  rw [thresholdLoop_getD _ _ _ i (by simpa using hi), foldl_add_eq_sum,
    List.map_take]
  ring

/-- The total waypoint count of a non-empty list of non-empty legs is
positive. -/
theorem total_length_pos (legs : List Segment) (h1 : legs ≠ [])
    (h2 : ∀ s ∈ legs, s.coordinates ≠ []) :
    0 < (legs.map (fun s => (s.coordinates.length : ℚ))).sum := by
  apply List.sum_pos
  · intro x hx
    rcases List.mem_map.mp hx with ⟨s, hs, rfl⟩
    have := h2 s hs
    have : 0 < s.coordinates.length := List.length_pos.mpr this
    exact_mod_cast this
  · simpa using h1

/-- The cumulative share through a leg in range is positive. -/
theorem partial_length_pos (legs : List Segment) (h2 : ∀ s ∈ legs, s.coordinates ≠ [])
    (i : ℕ) (hi : i < legs.length) :
    0 < ((legs.take (i + 1)).map (fun s => (s.coordinates.length : ℚ))).sum := by
  apply List.sum_pos
  · intro x hx
    rcases List.mem_map.mp hx with ⟨s, hs, rfl⟩
    have := h2 s (List.mem_of_mem_take hs)
    have : 0 < s.coordinates.length := List.length_pos.mpr this
    exact_mod_cast this
  · intro hnil
    apply_fun List.length at hnil
    rw [List.length_map, List.length_take] at hnil
    simp only [List.length_nil] at hnil
    omega

/-- A prefix share is at most the total. -/
theorem partial_le_total (legs : List Segment) (i : ℕ) :
    ((legs.take (i + 1)).map (fun s => (s.coordinates.length : ℚ))).sum ≤
      (legs.map (fun s => (s.coordinates.length : ℚ))).sum := by
  conv_rhs => rw [← List.take_append_drop (i + 1) legs]
  rw [List.map_append, List.sum_append]
  have : 0 ≤ ((legs.drop (i + 1)).map (fun s => (s.coordinates.length : ℚ))).sum := by
    apply List.sum_nonneg
    intro x hx
    rcases List.mem_map.mp hx with ⟨s, _, rfl⟩
    positivity
  linarith

/-- Claim C8: for every non-empty list of legs each having a non-empty
coordinate list, `calculateSegmentProgressThresholds` returns one fraction
per leg, strictly increasing and lying in `(0, 1]`, where the `i`-th value
is the cumulative share of the total waypoint count consumed through leg
`i`, and the final threshold equals 1.  (On the well-formed inputs of the
claim the operation always succeeds; the embedding is total and an empty
leg list yields the empty threshold list.) -/
theorem C8_progress_thresholds (legs : List Segment) (h1 : legs ≠ [])
    (h2 : ∀ s ∈ legs, s.coordinates ≠ []) :
    (calculateSegmentProgressThresholds legs).length = legs.length ∧
    (∀ i, i + 1 < legs.length →
      (calculateSegmentProgressThresholds legs).getD i 0 <
        (calculateSegmentProgressThresholds legs).getD (i + 1) 0) ∧
    (∀ i, i < legs.length →
      0 < (calculateSegmentProgressThresholds legs).getD i 0 ∧
        (calculateSegmentProgressThresholds legs).getD i 0 ≤ 1) ∧
    (∀ i, i < legs.length →
      (calculateSegmentProgressThresholds legs).getD i 0 =
        ((legs.take (i + 1)).map (fun s => (s.coordinates.length : ℚ))).sum /
          (legs.map (fun s => (s.coordinates.length : ℚ))).sum) ∧
    (calculateSegmentProgressThresholds legs).getD (legs.length - 1) 0 = 1 := by
  have hT := total_length_pos legs h1 h2
  refine ⟨thresholds_length legs, ?_, ?_, fun i hi => thresholds_getD legs i hi, ?_⟩
  · intro i hi
    rw [thresholds_getD legs i (by omega), thresholds_getD legs (i + 1) hi]
    rw [div_lt_div_iff_of_pos_right hT]
    conv_rhs => rw [← List.take_append_drop (i + 1) (legs.take (i + 2))]
    rw [List.take_take, min_eq_left (by omega), List.map_append, List.sum_append]
    have hlen : ((legs.take (i + 2)).drop (i + 1)).length = 1 := by
      rw [List.length_drop, List.length_take]
      omega
    have hpos : 0 < (((legs.take (i + 2)).drop (i + 1)).map
        (fun s => (s.coordinates.length : ℚ))).sum := by
      apply List.sum_pos
      · intro x hx
        rcases List.mem_map.mp hx with ⟨s, hs, rfl⟩
        have hmem : s ∈ legs := List.mem_of_mem_take (List.mem_of_mem_drop hs)
        have : 0 < s.coordinates.length := List.length_pos.mpr (h2 s hmem)
        exact_mod_cast this
      · intro hnil
        apply_fun List.length at hnil
        rw [List.length_map, hlen] at hnil
        simp at hnil
    linarith
  · intro i hi
    rw [thresholds_getD legs i hi]
    constructor
    · exact div_pos (partial_length_pos legs h2 i hi) hT
    · rw [div_le_one hT]
      exact partial_le_total legs i
  · have hlast : legs.length - 1 < legs.length := by
      have : legs.length ≠ 0 := by simpa using h1
      omega
    rw [thresholds_getD legs _ hlast]
    rw [List.take_of_length_le (by omega), div_self (ne_of_gt hT)]

/-- Witness for C8 on a concrete two-leg route. -/
theorem C8_progress_thresholds_witness :
    ([⟨[(0, 0), (0, 1)], "car", some "A", some "X", "driving", none, some 0⟩,
      ⟨[(1, 1), (2, 2)], "car", some "X", some "Y", "hike", none, none⟩] : List Segment) ≠ [] ∧
    (calculateSegmentProgressThresholds
      [⟨[(0, 0), (0, 1)], "car", some "A", some "X", "driving", none, some 0⟩,
       ⟨[(1, 1), (2, 2)], "car", some "X", some "Y", "hike", none, none⟩]).getD 1 0 = 1 := by
  have h := C8_progress_thresholds
    [⟨[(0, 0), (0, 1)], "car", some "A", some "X", "driving", none, some 0⟩,
     ⟨[(1, 1), (2, 2)], "car", some "X", some "Y", "hike", none, none⟩]
    (by simp) (by intro s hs; fin_cases hs <;> simp)
  exact ⟨by simp, h.2.2.2.2⟩

theorem getLastD_eq_getD_length_sub_one {α : Type _} :
    ∀ (l : List α) (d : α), l ≠ [] → l.getLastD d = l.getD (l.length - 1) d := by
  intro l
  induction l with
  | nil => intro d h; exact absurd rfl h
  | cons a rest ih =>
    intro d _
    match rest, ih with
    | [], _ => rfl
    | b :: rest', ih =>
      rw [List.getLastD_cons, ih a (by simp)]
      rw [List.getD_eq_getElem _ _ (by simp), List.getD_eq_getElem _ _ (by simp)]
      simp

/-- The scan loop stops at the first threshold exceeding `progress`, with
the previous threshold (or the initial `start`) as running start. -/
theorem segScan_found (p : ℚ) :
    ∀ (l : List ℚ) (idx : ℕ) (start : ℚ) (lastIdx : ℕ) (j : ℕ),
      j < l.length → p < l.getD j 0 → (∀ k < j, ¬p < l.getD k 0) →
      segScan p l idx start lastIdx =
        (idx + j, if j = 0 then start else l.getD (j - 1) 0) := by
  intro l
  induction l with
  | nil => intro idx start lastIdx j hj; simp at hj
  | cons t rest ih =>
    intro idx start lastIdx j hj hhit hbefore
    match j with
    | 0 =>
      simp only [List.getD_cons_zero] at hhit
      simp [segScan, hhit]
    | j + 1 =>
      have hnt : ¬p < t := by simpa using hbefore 0 (Nat.succ_pos j)
      rw [segScan, if_neg hnt]
      rw [ih (idx + 1) t lastIdx j (by simpa using hj)
        (by simpa using hhit) (fun k hk => by simpa using hbefore (k + 1) (by omega))]
      have hidx : idx + 1 + j = idx + (j + 1) := by omega
      match j with
      | 0 => rw [hidx]; rfl
      | k + 1 =>
        rw [hidx]
        simp only [List.getD_cons_succ, Nat.add_sub_cancel]
        rfl

/-- When no threshold exceeds `progress` the scan returns the default
index with the last threshold (or initial `start`) as running start. -/
theorem segScan_none (p : ℚ) :
    ∀ (l : List ℚ) (idx : ℕ) (start : ℚ) (lastIdx : ℕ),
      (∀ t ∈ l, ¬p < t) →
      segScan p l idx start lastIdx = (lastIdx, l.getLastD start) := by
  intro l
  induction l with
  | nil => intro idx start lastIdx _; rfl
  | cons t rest ih =>
    intro idx start lastIdx hnone
    rw [segScan, if_neg (hnone t (by simp)), ih (idx + 1) t lastIdx
      (fun u hu => hnone u (by simp [hu])), List.getLastD_cons]

theorem getD_mem_of_lt (ths : List ℚ) (k : ℕ) (hk : k < ths.length) :
    ths.getD k 0 ∈ ths := by
  rw [List.getD_eq_getElem _ _ hk]
  exact List.getElem_mem hk

theorem chain'_le_adjacent (ths : List ℚ) (hmono : List.Chain' (· ≤ ·) ths)
    (k : ℕ) (hk : k + 1 < ths.length) : ths.getD k 0 ≤ ths.getD (k + 1) 0 := by
  have h := List.chain'_iff_get.mp hmono k (by omega)
  rw [List.getD_eq_getElem _ _ (by omega), List.getD_eq_getElem _ _ hk]
  simpa using h

theorem chain'_lt_getD_le (ths : List ℚ) (hstrict : List.Chain' (· < ·) ths) :
    ∀ j k : ℕ, j ≤ k → k < ths.length → ths.getD j 0 ≤ ths.getD k 0 := by
  intro j k hjk hk
  rcases eq_or_lt_of_le hjk with rfl | hlt
  · exact le_refl _
  · have hp := List.chain'_iff_pairwise.mp hstrict
    have h := List.pairwise_iff_get.mp hp ⟨j, by omega⟩ ⟨k, hk⟩ (Fin.mk_lt_mk.mpr hlt)
    rw [List.getD_eq_getElem _ _ (by omega), List.getD_eq_getElem _ _ hk]
    simpa using h.le

/-- `getSegmentInfo` returns the index of the first threshold strictly
greater than `progress`, or the last index when none exceeds it. -/
theorem getSegmentInfo_char (ths : List ℚ) (hne : ths ≠ []) (p : ℚ) :
    (getSegmentInfo p ths).currentSegment < ths.length ∧
    (∀ k < (getSegmentInfo p ths).currentSegment, ths.getD k 0 ≤ p) ∧
    (p < ths.getD (getSegmentInfo p ths).currentSegment 0 ∨
      ((getSegmentInfo p ths).currentSegment = ths.length - 1 ∧ ∀ t ∈ ths, t ≤ p)) := by
  have hlen : 0 < ths.length := List.length_pos.mpr hne
  by_cases hex : ∃ j, j < ths.length ∧ p < ths.getD j 0
  · have hspec := Nat.find_spec hex
    have hbefore : ∀ k < Nat.find hex, ¬p < ths.getD k 0 := by
      intro k hk hkp
      have : Nat.find hex ≤ k := Nat.find_min' hex ⟨by omega, hkp⟩
      omega
    have hscan := segScan_found p ths 0 0 (ths.length - 1) (Nat.find hex)
      hspec.1 hspec.2 hbefore
    have hcs : (getSegmentInfo p ths).currentSegment = Nat.find hex := by
      simp [getSegmentInfo, hscan]
    refine ⟨by rw [hcs]; exact hspec.1, ?_, Or.inl (by rw [hcs]; exact hspec.2)⟩
    intro k hk
    rw [hcs] at hk
    exact not_lt.mp (hbefore k hk)
  · push_neg at hex
    have hnone : ∀ t ∈ ths, ¬p < t := by
      intro t ht
      rcases List.mem_iff_getElem.mp ht with ⟨i, hi, rfl⟩
      have := hex i hi
      rw [List.getD_eq_getElem _ _ hi] at this
      exact not_lt.mpr this
    have hscan := segScan_none p ths 0 0 (ths.length - 1) hnone
    have hcs : (getSegmentInfo p ths).currentSegment = ths.length - 1 := by
      simp [getSegmentInfo, hscan]
    refine ⟨by rw [hcs]; omega, ?_,
      Or.inr ⟨hcs, fun t ht => not_lt.mp (hnone t ht)⟩⟩
    intro k hk
    rw [hcs] at hk
    exact not_lt.mp (hnone _ (getD_mem_of_lt ths k (by omega)))

/-- Evaluation of `getSegmentInfo` given the scan result. -/
theorem getSegmentInfo_eval (ths : List ℚ) (p : ℚ) (j : ℕ) (S : ℚ)
    (hscan : segScan p ths 0 0 (ths.length - 1) = (j, S)) :
    getSegmentInfo p ths =
      ⟨j, S,
        if 0 < jsOrNum (ths.getD j 0) 1 - S then
          min ((p - S) / (jsOrNum (ths.getD j 0) 1 - S)) 1
        else 1⟩ := by
  simp only [getSegmentInfo, hscan]

/-- The code's clamp (`min(·, 1)` over a nonnegative ratio) agrees with
the spec's two-sided clamp when the start does not exceed the progress. -/
theorem codeClamp_eq_specClamp (p S E : ℚ) (hSp : S ≤ p) (hSE : S ≤ E) :
    (if 0 < E - S then min ((p - S) / (E - S)) 1 else 1) =
    (if E - S = 0 then 1 else min (max ((p - S) / (E - S)) 0) 1) := by
  by_cases h : 0 < E - S
  · rw [if_pos h, if_neg (by intro h0; rw [h0] at h; exact lt_irrefl 0 h)]
    rw [max_eq_left (div_nonneg (by linarith) h.le)]
  · rw [if_neg h, if_pos (by linarith)]

/-- Past the final threshold the spec's clamp saturates at 1. -/
theorem specClamp_saturates (p S E : ℚ) (hEp : E ≤ p) (hSE : S ≤ E) :
    (1 : ℚ) = (if E - S = 0 then 1 else min (max ((p - S) / (E - S)) 0) 1) := by
  by_cases h : E - S = 0
  · rw [if_pos h]
  · rw [if_neg h]
    have hdur : 0 < E - S := by
      rcases lt_or_eq_of_le hSE with h' | h'
      · linarith
      · exact absurd (by linarith) h
    have hone : (1 : ℚ) ≤ (p - S) / (E - S) := by
      rw [le_div_iff₀ hdur]
      linarith
    rw [max_eq_left (by linarith), min_eq_right hone]

/-- The code's local progress agrees with the clamped spec formula. -/
theorem getSegmentInfo_progress_spec (ths : List ℚ) (hne : ths ≠ [])
    (hmono : List.Chain' (· ≤ ·) ths) (hpos : ∀ t ∈ ths, 0 < t)
    (p : ℚ) (hp0 : 0 ≤ p) :
    (getSegmentInfo p ths).segmentProgress =
      Spec.specLocalProgress p ths (getSegmentInfo p ths).currentSegment := by
  have hlen : 0 < ths.length := List.length_pos.mpr hne
  by_cases hex : ∃ j, j < ths.length ∧ p < ths.getD j 0
  · have hspec := Nat.find_spec hex
    have hbefore : ∀ k < Nat.find hex, ¬p < ths.getD k 0 := by
      intro k hk hkp
      have : Nat.find hex ≤ k := Nat.find_min' hex ⟨by omega, hkp⟩
      omega
    have hscan := segScan_found p ths 0 0 (ths.length - 1) (Nat.find hex)
      hspec.1 hspec.2 hbefore
    rw [Nat.zero_add] at hscan
    have hepos : 0 < ths.getD (Nat.find hex) 0 :=
      hpos _ (getD_mem_of_lt ths _ hspec.1)
    have hne0 : ths.getD (Nat.find hex) 0 ≠ 0 := ne_of_gt hepos
    have hstart_le : (if Nat.find hex = 0 then (0 : ℚ)
        else ths.getD (Nat.find hex - 1) 0) ≤ p := by
      by_cases h0 : Nat.find hex = 0
      · rw [if_pos h0]; exact hp0
      · rw [if_neg h0]
        exact not_lt.mp (hbefore (Nat.find hex - 1) (by omega))
    have hse : (if Nat.find hex = 0 then (0 : ℚ)
        else ths.getD (Nat.find hex - 1) 0) ≤ ths.getD (Nat.find hex) 0 := by
      by_cases h0 : Nat.find hex = 0
      · rw [if_pos h0]; exact hepos.le
      · rw [if_neg h0]
        have := chain'_le_adjacent ths hmono (Nat.find hex - 1) (by omega)
        rwa [show Nat.find hex - 1 + 1 = Nat.find hex by omega] at this
    rw [getSegmentInfo_eval ths p _ _ hscan]
    rw [show jsOrNum (ths.getD (Nat.find hex) 0) 1 = ths.getD (Nat.find hex) 0 by
      rw [jsOrNum, if_neg hne0]]
    rw [Spec.specLocalProgress]
    exact codeClamp_eq_specClamp p _ _ hstart_le hse
  · push_neg at hex
    have hnone : ∀ t ∈ ths, ¬p < t := by
      intro t ht
      rcases List.mem_iff_getElem.mp ht with ⟨i, hi, rfl⟩
      have := hex i hi
      rw [List.getD_eq_getElem _ _ hi] at this
      exact not_lt.mpr this
    have hscan := segScan_none p ths 0 0 (ths.length - 1) hnone
    rw [getLastD_eq_getD_length_sub_one ths 0 hne] at hscan
    have hlastpos : 0 < ths.getD (ths.length - 1) 0 :=
      hpos _ (getD_mem_of_lt ths _ (by omega))
    have hne0 : ths.getD (ths.length - 1) 0 ≠ 0 := ne_of_gt hlastpos
    have hp_ge : ths.getD (ths.length - 1) 0 ≤ p :=
      not_lt.mp (hnone _ (getD_mem_of_lt ths _ (by omega)))
    have hse : (if ths.length - 1 = 0 then (0 : ℚ)
        else ths.getD (ths.length - 1 - 1) 0) ≤ ths.getD (ths.length - 1) 0 := by
      by_cases h0 : ths.length - 1 = 0
      · rw [if_pos h0]; exact hlastpos.le
      · rw [if_neg h0]
        have := chain'_le_adjacent ths hmono (ths.length - 1 - 1) (by omega)
        rwa [show ths.length - 1 - 1 + 1 = ths.length - 1 by omega] at this
    rw [getSegmentInfo_eval ths p _ _ hscan]
    rw [show jsOrNum (ths.getD (ths.length - 1) 0) 1 = ths.getD (ths.length - 1) 0 by
      rw [jsOrNum, if_neg hne0]]
    rw [if_neg (by simp)]
    rw [Spec.specLocalProgress]
    exact specClamp_saturates p _ _ hp_ge hse


/-- The spec formula always lies in `[0, 1]`. -/
theorem specLocalProgress_mem (p : ℚ) (ths : List ℚ) (leg : ℕ) :
    0 ≤ Spec.specLocalProgress p ths leg ∧ Spec.specLocalProgress p ths leg ≤ 1 := by
  rw [Spec.specLocalProgress]
  split_ifs <;> norm_num

/-- Under strictly increasing thresholds each leg index is hit on exactly
the half-open interval from its start threshold (inclusive) to its own
threshold (exclusive), the final leg also absorbing everything beyond. -/
theorem getSegmentInfo_coverage (ths : List ℚ) (hne : ths ≠ [])
    (hstrict : List.Chain' (· < ·) ths) (i : ℕ) (hi : i < ths.length)
    (q : ℚ) (hq0 : 0 ≤ q) :
    (getSegmentInfo q ths).currentSegment = i ↔
      ((if i = 0 then (0 : ℚ) else ths.getD (i - 1) 0) ≤ q ∧
        (q < ths.getD i 0 ∨ i = ths.length - 1)) := by
  obtain ⟨hcslt, hbelow, hdisj⟩ := getSegmentInfo_char ths hne q
  constructor
  · intro hcs
    rw [hcs] at hcslt hbelow hdisj
    constructor
    · by_cases h0 : i = 0
      · rw [if_pos h0]; exact hq0
      · rw [if_neg h0]; exact hbelow (i - 1) (by omega)
    · rcases hdisj with h | h
      · exact Or.inl h
      · exact Or.inr h.1
  · rintro ⟨hlow, hdisj'⟩
    by_contra hneq
    rcases Nat.lt_or_ge (getSegmentInfo q ths).currentSegment i with hlt | hge
    · rcases hdisj with h | h
      · have h0 : i ≠ 0 := by omega
        rw [if_neg h0] at hlow
        have hmono := chain'_lt_getD_le ths hstrict
          (getSegmentInfo q ths).currentSegment (i - 1) (by omega) (by omega)
        linarith
      · omega
    · have hlt : i < (getSegmentInfo q ths).currentSegment := by omega
      have := hbelow i hlt
      rcases hdisj' with h | h
      · linarith
      · omega

/-- Claim C1: for every ProgressThresholds list (non-empty, non-decreasing
values in `(0, 1]` — the spec's data-model invariant) and every progress
in `[0, 1]`, `getSegmentInfo` returns as current leg the index of the
first threshold strictly greater than progress (the last leg if none
exceeds it, so progress ≥ 1 clamps to the final leg), and a local progress
equal to `(progress − startOfLeg)/(thresholdOfLeg − startOfLeg)` clamped
to `[0, 1]` (defined as 1 for a zero-width leg), hence always in `[0, 1]`;
consequently, under strictly increasing thresholds, each leg index is
returned over exactly one contiguous sub-interval of `[0, 1]`. -/
theorem C1_getSegmentInfo (ths : List ℚ) (hne : ths ≠ [])
    (hmono : List.Chain' (· ≤ ·) ths) (hpos : ∀ t ∈ ths, 0 < t ∧ t ≤ 1)
    (p : ℚ) (hp0 : 0 ≤ p) (_hp1 : p ≤ 1) :
    ((getSegmentInfo p ths).currentSegment < ths.length ∧
      (∀ k < (getSegmentInfo p ths).currentSegment, ths.getD k 0 ≤ p) ∧
      (p < ths.getD (getSegmentInfo p ths).currentSegment 0 ∨
        ((getSegmentInfo p ths).currentSegment = ths.length - 1 ∧
          ∀ t ∈ ths, t ≤ p))) ∧
    (getSegmentInfo p ths).segmentProgress =
      Spec.specLocalProgress p ths (getSegmentInfo p ths).currentSegment ∧
    (0 ≤ (getSegmentInfo p ths).segmentProgress ∧
      (getSegmentInfo p ths).segmentProgress ≤ 1) ∧
    (List.Chain' (· < ·) ths →
      ∀ i < ths.length, ∀ q : ℚ, 0 ≤ q → q ≤ 1 →
        ((getSegmentInfo q ths).currentSegment = i ↔
          ((if i = 0 then (0 : ℚ) else ths.getD (i - 1) 0) ≤ q ∧
            (q < ths.getD i 0 ∨ i = ths.length - 1)))) := by
  have hsp := getSegmentInfo_progress_spec ths hne hmono (fun t ht => (hpos t ht).1) p hp0
  refine ⟨getSegmentInfo_char ths hne p, hsp, ?_, ?_⟩
  · rw [hsp]
    exact specLocalProgress_mem p ths _
  · intro hstrict i hi q hq0 _
    exact getSegmentInfo_coverage ths hne hstrict i hi q hq0

/-- Witness for C1 at thresholds `[1/2, 1]` and progress `3/4`. -/
theorem C1_getSegmentInfo_witness :
    ([(1 : ℚ)/2, 1] ≠ ([] : List ℚ)) ∧
    (getSegmentInfo (3/4) [1/2, 1]).currentSegment = 1 ∧
    (getSegmentInfo (3/4) [1/2, 1]).segmentProgress =
      Spec.specLocalProgress (3/4) [1/2, 1] 1 := by
  have h := C1_getSegmentInfo [1/2, 1] (by simp)
    (by norm_num [List.chain'_cons, List.chain'_singleton])
    (by intro t ht; fin_cases ht <;> norm_num)
    (3/4) (by norm_num) (by norm_num)
  refine ⟨by simp, ?_, ?_⟩
  · have hcs : (getSegmentInfo (3/4) [(1 : ℚ)/2, 1]).currentSegment = 1 := by
      norm_num [getSegmentInfo, segScan, jsOrNum]
    exact hcs
  · have := h.2.1
    rwa [show (getSegmentInfo (3/4) [(1 : ℚ)/2, 1]).currentSegment = 1 by
      norm_num [getSegmentInfo, segScan, jsOrNum]] at this

theorem range_map_getD (l : List ℚ) :
    (List.range l.length).map (fun i => l.getD i 0) = l := by
  apply List.ext_getElem
  · simp
  · intro i h1 h2
    simp only [List.getElem_map, List.getElem_range]
    exact List.getD_eq_getElem _ _ h2

/-- The progress entries of the produced keyframes are `0 :: thresholds`. -/
theorem createZoomKeyframes_map_progress (zs ths : List ℚ) :
    (createZoomKeyframes zs ths).map Keyframe.progress = 0 :: ths := by
  simp only [createZoomKeyframes, List.map_cons, List.map_map]
  congr 1
  exact range_map_getD ths

theorem map_progress_getD (kfs : List Keyframe) (i : ℕ) (hi : i < kfs.length) :
    (kfs.map Keyframe.progress).getD i 0 = (kfs.getD i ⟨0, 0⟩).progress := by
  rw [List.getD_eq_getElem _ _ (by simpa using hi), List.getD_eq_getElem _ _ hi]
  simp

/-- Strict version of `chain'_lt_getD_le`. -/
theorem chain'_lt_getD_lt (ths : List ℚ) (hstrict : List.Chain' (· < ·) ths) :
    ∀ j k : ℕ, j < k → k < ths.length → ths.getD j 0 < ths.getD k 0 := by
  intro j k hjk hk
  have hp := List.chain'_iff_pairwise.mp hstrict
  have h := List.pairwise_iff_get.mp hp ⟨j, by omega⟩ ⟨k, hk⟩ (Fin.mk_lt_mk.mpr hjk)
  rw [List.getD_eq_getElem _ _ (by omega), List.getD_eq_getElem _ _ hk]
  simpa using h

/-- The keyframe-pair search succeeds whenever some adjacent pair brackets
the query. -/
theorem findKeyframePair_isSome :
    ∀ (kfs : List Keyframe) (i : ℕ), i + 1 < kfs.length → ∀ q : ℚ,
      (kfs.getD i ⟨0, 0⟩).progress ≤ q → q ≤ (kfs.getD (i + 1) ⟨0, 0⟩).progress →
      (findKeyframePair q kfs).isSome
  | [], i, hi => by simp at hi
  | [_], i, hi => by simp at hi
  | a :: b :: rest, i, hi => fun q hq1 hq2 => by
    rw [findKeyframePair]
    by_cases hcond : a.progress ≤ q ∧ q ≤ b.progress
    · rw [if_pos hcond]
      rfl
    · rw [if_neg hcond]
      match i with
      | 0 =>
        exact absurd ⟨by simpa using hq1, by simpa using hq2⟩ hcond
      | i + 1 =>
        exact findKeyframePair_isSome (b :: rest) i (by simpa using hi) q
          (by simpa using hq1) (by simpa using hq2)

/-- Dropping the head keyframe does not change the interpolation when the
head pair does not bracket the query and the tail search succeeds. -/
theorem getInterpolatedZoom_tail (q : ℚ) (a b : Keyframe) (rest : List Keyframe)
    (hcond : ¬(a.progress ≤ q ∧ q ≤ b.progress))
    (hsome : (findKeyframePair q (b :: rest)).isSome) :
    getInterpolatedZoom q (a :: b :: rest) = getInterpolatedZoom q (b :: rest) := by
  obtain ⟨pr, hpr⟩ := Option.isSome_iff_exists.mp hsome
  rw [getInterpolatedZoom, getInterpolatedZoom, findKeyframePair, if_neg hcond, hpr]

/-- Evaluation of `getInterpolatedZoom` between a bracketing keyframe
pair: the smoothstep blend of the two zooms (strictly increasing
progresses make the bracketing pair effectively unique). -/
theorem interp_eval :
    ∀ (kfs : List Keyframe), List.Chain' (· < ·) (kfs.map Keyframe.progress) →
      ∀ (i : ℕ), i + 1 < kfs.length → ∀ q : ℚ,
      (kfs.getD i ⟨0, 0⟩).progress ≤ q → q ≤ (kfs.getD (i + 1) ⟨0, 0⟩).progress →
      getInterpolatedZoom q kfs =
        (kfs.getD i ⟨0, 0⟩).zoom +
          ((kfs.getD (i + 1) ⟨0, 0⟩).zoom - (kfs.getD i ⟨0, 0⟩).zoom) *
            (((q - (kfs.getD i ⟨0, 0⟩).progress) /
                ((kfs.getD (i + 1) ⟨0, 0⟩).progress - (kfs.getD i ⟨0, 0⟩).progress)) *
              ((q - (kfs.getD i ⟨0, 0⟩).progress) /
                ((kfs.getD (i + 1) ⟨0, 0⟩).progress - (kfs.getD i ⟨0, 0⟩).progress)) *
              (3 - 2 * ((q - (kfs.getD i ⟨0, 0⟩).progress) /
                ((kfs.getD (i + 1) ⟨0, 0⟩).progress - (kfs.getD i ⟨0, 0⟩).progress)))) := by
  intro kfs
  induction kfs with
  | nil => intro _ i hi; simp at hi
  | cons a tail ih =>
    match tail, ih with
    | [], _ => intro _ i hi; simp at hi
    | b :: rest, ih =>
      intro hchain i hi q hq1 hq2
      rw [List.map_cons, List.map_cons] at hchain
      obtain ⟨hab, htail⟩ := List.chain'_cons.mp hchain
      have htail' : List.Chain' (· < ·) ((b :: rest).map Keyframe.progress) := by
        rwa [List.map_cons]
      match i with
      | 0 =>
        simp only [List.getD_cons_zero, List.getD_cons_succ] at hq1 hq2 ⊢
        have hrange : (0 : ℚ) < b.progress - a.progress := by linarith
        rw [getInterpolatedZoom, findKeyframePair, if_pos ⟨hq1, by simpa using hq2⟩]
        simp only [if_pos hrange]
      | i + 1 =>
        simp only [List.length_cons] at hi
        have hi2 : i + 1 < (b :: rest).length := by
          simp only [List.length_cons]
          omega
        have hi3 : i < (b :: rest).length := by
          simp only [List.length_cons]
          omega
        have himap : i < ((b :: rest).map Keyframe.progress).length := by
          simp only [List.length_map, List.length_cons]
          omega
        by_cases hqb : q ≤ b.progress
        · -- the query sits exactly on the shared boundary `b.progress`
          have hlow : b.progress ≤ ((b :: rest).getD i ⟨0, 0⟩).progress := by
            rcases Nat.eq_zero_or_pos i with hzero | hipos
            · rw [hzero]
              simp
            · have := chain'_lt_getD_lt ((b :: rest).map Keyframe.progress) htail'
                0 i hipos himap
              rw [map_progress_getD _ 0 (by simp), map_progress_getD _ i hi3] at this
              simpa using this.le
          have hq1' : ((b :: rest).getD i ⟨0, 0⟩).progress ≤ q := by simpa using hq1
          have hqeq : q = b.progress := le_antisymm hqb (le_trans hlow hq1')
          have hieq : i = 0 := by
            by_contra hne
            have hipos : 0 < i := Nat.pos_of_ne_zero hne
            have hstrictlt := chain'_lt_getD_lt ((b :: rest).map Keyframe.progress) htail'
              0 i hipos himap
            rw [map_progress_getD _ 0 (by simp), map_progress_getD _ i hi3] at hstrictlt
            simp only [List.getD_cons_zero] at hstrictlt
            have hcontra : b.progress < b.progress := by
              calc b.progress < ((b :: rest).getD i ⟨0, 0⟩).progress := hstrictlt
                _ ≤ q := hq1'
                _ = b.progress := hqeq
            exact lt_irrefl _ hcontra
          subst hieq
          subst hqeq
          rw [getInterpolatedZoom, findKeyframePair, if_pos ⟨hab.le, le_refl _⟩]
          have hrange : (0 : ℚ) < b.progress - a.progress := by linarith
          simp only [if_pos hrange, List.getD_cons_succ, List.getD_cons_zero]
          rw [div_self (ne_of_gt hrange)]
          have hz : (b.progress - b.progress) /
              (((rest.getD 0 ⟨0, 0⟩).progress) - b.progress) = 0 := by
            simp
          rw [hz]
          ring
        · have hcond : ¬(a.progress ≤ q ∧ q ≤ b.progress) := fun h => hqb h.2
          have hsome := findKeyframePair_isSome (b :: rest) i hi2 q
            (by simpa using hq1) (by simpa using hq2)
          rw [getInterpolatedZoom_tail q a b rest hcond hsome]
          rw [ih htail' i hi2 q (by simpa using hq1) (by simpa using hq2)]
          simp only [List.getD_cons_succ]

/-- The smoothstep polynomial `t·t·(3 − 2t)` is monotone on `[0, 1]`. -/
theorem smoothstep_mono (a b : ℚ) (h0 : 0 ≤ a) (hab : a ≤ b) (h1 : b ≤ 1) :
    a * a * (3 - 2 * a) ≤ b * b * (3 - 2 * b) := by
  nlinarith [sq_nonneg (a - b), sq_nonneg (a + b), mul_nonneg h0 (sub_nonneg.mpr hab),
    mul_nonneg (sub_nonneg.mpr hab) (sub_nonneg.mpr h1),
    mul_nonneg (mul_nonneg h0 (sub_nonneg.mpr hab)) (sub_nonneg.mpr h1)]

/-- Claim C4: over keyframes produced by `createZoomKeyframes` from
positive-width legs (strictly increasing thresholds, all positive),
`getInterpolatedZoom` at any keyframe's exact progress equals that
keyframe's zoom, and between two consecutive keyframes the value is the
smoothstep blend `3t² − 2t³` of the two bracketing zooms, hence monotonic
in progress whenever the two zooms differ in a single direction. -/
theorem C4_interpolated_zoom (zs ths : List ℚ)
    (hths : List.Chain' (· < ·) ((0 : ℚ) :: ths))
    (kfs : List Keyframe) (hkfs : kfs = createZoomKeyframes zs ths) :
    (∀ i < kfs.length,
      getInterpolatedZoom ((kfs.getD i ⟨0, 0⟩).progress) kfs = (kfs.getD i ⟨0, 0⟩).zoom) ∧
    (∀ i, i + 1 < kfs.length → ∀ p q : ℚ,
      (kfs.getD i ⟨0, 0⟩).progress ≤ p → p ≤ q → q ≤ (kfs.getD (i + 1) ⟨0, 0⟩).progress →
      (getInterpolatedZoom q kfs =
        (kfs.getD i ⟨0, 0⟩).zoom +
          ((kfs.getD (i + 1) ⟨0, 0⟩).zoom - (kfs.getD i ⟨0, 0⟩).zoom) *
            (((q - (kfs.getD i ⟨0, 0⟩).progress) /
                ((kfs.getD (i + 1) ⟨0, 0⟩).progress - (kfs.getD i ⟨0, 0⟩).progress)) *
              ((q - (kfs.getD i ⟨0, 0⟩).progress) /
                ((kfs.getD (i + 1) ⟨0, 0⟩).progress - (kfs.getD i ⟨0, 0⟩).progress)) *
              (3 - 2 * ((q - (kfs.getD i ⟨0, 0⟩).progress) /
                ((kfs.getD (i + 1) ⟨0, 0⟩).progress - (kfs.getD i ⟨0, 0⟩).progress))))) ∧
      ((kfs.getD i ⟨0, 0⟩).zoom ≤ (kfs.getD (i + 1) ⟨0, 0⟩).zoom →
        getInterpolatedZoom p kfs ≤ getInterpolatedZoom q kfs) ∧
      ((kfs.getD (i + 1) ⟨0, 0⟩).zoom ≤ (kfs.getD i ⟨0, 0⟩).zoom →
        getInterpolatedZoom q kfs ≤ getInterpolatedZoom p kfs)) := by
  have hchain : List.Chain' (· < ·) (kfs.map Keyframe.progress) := by
    rw [hkfs, createZoomKeyframes_map_progress]
    exact hths
  have hadj : ∀ k, k + 1 < kfs.length →
      (kfs.getD k ⟨0, 0⟩).progress < (kfs.getD (k + 1) ⟨0, 0⟩).progress := by
    intro k hk
    have := chain'_lt_getD_lt (kfs.map Keyframe.progress) hchain k (k + 1)
      (by omega) (by simpa using hk)
    rwa [map_progress_getD _ k (by omega), map_progress_getD _ (k + 1) hk] at this
  constructor
  · intro i hi
    by_cases hnext : i + 1 < kfs.length
    · have heval := interp_eval kfs hchain i hnext ((kfs.getD i ⟨0, 0⟩).progress)
        (le_refl _) (hadj i hnext).le
      rw [heval, sub_self, zero_div]
      ring
    · match i, hi, hnext with
      | 0, hi, hnext =>
        -- single keyframe: the search fails and both fallbacks coincide
        match kfs, hi, hnext with
        | [a], _, _ => simp [getInterpolatedZoom, findKeyframePair]
        | a :: b :: r, _, hnext => exact absurd (by simp) hnext
      | i + 1, hi, hnext =>
        have hieq : i + 1 + 1 = kfs.length := by omega
        have hprev : i + 1 < kfs.length := by omega
        have heval := interp_eval kfs hchain i (by omega)
          ((kfs.getD (i + 1) ⟨0, 0⟩).progress) (hadj i (by omega)).le (le_refl _)
        rw [heval, div_self (by have := hadj i (by omega); linarith)]
        ring
  · intro i hi p q hp hpq hq
    have hΔ : (0 : ℚ) <
        (kfs.getD (i + 1) ⟨0, 0⟩).progress - (kfs.getD i ⟨0, 0⟩).progress := by
      have := hadj i hi
      linarith
    have heval_q := interp_eval kfs hchain i hi q (le_trans hp hpq) hq
    have heval_p := interp_eval kfs hchain i hi p hp (le_trans hpq hq)
    have htp0 : 0 ≤ (p - (kfs.getD i ⟨0, 0⟩).progress) /
        ((kfs.getD (i + 1) ⟨0, 0⟩).progress - (kfs.getD i ⟨0, 0⟩).progress) :=
      div_nonneg (by linarith) hΔ.le
    have htpq : (p - (kfs.getD i ⟨0, 0⟩).progress) /
        ((kfs.getD (i + 1) ⟨0, 0⟩).progress - (kfs.getD i ⟨0, 0⟩).progress) ≤
        (q - (kfs.getD i ⟨0, 0⟩).progress) /
        ((kfs.getD (i + 1) ⟨0, 0⟩).progress - (kfs.getD i ⟨0, 0⟩).progress) := by
      apply div_le_div_of_nonneg_right ?_ hΔ.le
      linarith
    have htq1 : (q - (kfs.getD i ⟨0, 0⟩).progress) /
        ((kfs.getD (i + 1) ⟨0, 0⟩).progress - (kfs.getD i ⟨0, 0⟩).progress) ≤ 1 := by
      rw [div_le_one hΔ]
      linarith
    have hss := smoothstep_mono _ _ htp0 htpq htq1
    refine ⟨heval_q, ?_, ?_⟩
    · intro hdz
      rw [heval_p, heval_q]
      have hmul := mul_le_mul_of_nonneg_left hss
        (by linarith : (0 : ℚ) ≤ (kfs.getD (i + 1) ⟨0, 0⟩).zoom - (kfs.getD i ⟨0, 0⟩).zoom)
      linarith
    · intro hdz
      rw [heval_p, heval_q]
      have hmul := mul_le_mul_of_nonpos_left hss
        (by linarith : (kfs.getD (i + 1) ⟨0, 0⟩).zoom - (kfs.getD i ⟨0, 0⟩).zoom ≤ 0)
      linarith

/-- Witness for C4 on the keyframes of a concrete two-leg route. -/
theorem C4_interpolated_zoom_witness :
    createZoomKeyframes [13, 12] [1/2, 1] =
      createZoomKeyframes [13, 12] [1/2, 1] ∧
    getInterpolatedZoom
      (((createZoomKeyframes [13, 12] [1/2, 1]).getD 1 ⟨0, 0⟩).progress)
      (createZoomKeyframes [13, 12] [1/2, 1]) =
      ((createZoomKeyframes [13, 12] [1/2, 1]).getD 1 ⟨0, 0⟩).zoom := by
  have h := C4_interpolated_zoom [13, 12] [1/2, 1]
    (by norm_num [List.chain'_cons, List.chain'_singleton])
    (createZoomKeyframes [13, 12] [1/2, 1]) rfl
  exact ⟨rfl, h.1 1 (by norm_num [createZoomKeyframes])⟩

theorem min_min_max_clamp (a o d m : ℚ) :
    min (max (max a o) (min d m)) m = min (max (max a o) d) m := by
  rcases le_total d m with h | h
  · rw [min_eq_left h]
  · rw [min_eq_right h]
    rw [min_eq_right (le_max_right _ _),
      min_eq_right (le_trans h (le_max_right _ _))]

/-- Claim C5 (amended): `calculateSegmentZoomLevels` clamps an explicit
per-leg zoom from above by `maxZoom` (`Math.min(zoom, maxZoom)` applies to
both branches); only when no explicit zoom is present does it compute the
bounding-box fit and clamp it to be no less than both the whole-path
overview zoom and `defaultCloseZoom`, and no more than `maxZoom`. -/
theorem C5_segment_zoom_levels (getBoundsZoom : List (ℚ × ℚ) → ℚ × ℚ → ℚ)
    (routeSegments : List Segment) (allCoordinates : List (ℚ × ℚ))
    (options : ZoomOptions) (i : ℕ) (hi : i < routeSegments.length)
    (seg : Segment) (hseg : routeSegments.getD i ⟨[], "", none, none, "", none, none⟩ = seg) :
    (calculateSegmentZoomLevels getBoundsZoom routeSegments allCoordinates options).getD i 0 =
      (match seg.zoomLevel with
       | some z => min z (jsOr options.maxZoom 15)
       | none =>
           min
             (max
               (max
                 (getBoundsZoom seg.coordinates (options.padding.getD (100, 100)))
                 (getBoundsZoom allCoordinates (80, 80)))
               (jsOr options.defaultCloseZoom 14))
             (jsOr options.maxZoom 15)) := by
  rw [List.getD_eq_getElem _ _ hi] at hseg
  have hmap : (calculateSegmentZoomLevels getBoundsZoom routeSegments allCoordinates
      options).getD i 0 =
      min
        (match seg.zoomLevel with
         | some z => z
         | none =>
             max
               (max (getBoundsZoom seg.coordinates (options.padding.getD (100, 100)))
                 (getBoundsZoom allCoordinates (80, 80)))
               (min (jsOr options.defaultCloseZoom 14) (jsOr options.maxZoom 15)))
        (jsOr options.maxZoom 15) := by
    rw [calculateSegmentZoomLevels]
    rw [List.getD_eq_getElem _ _ (by simpa using hi)]
    rw [List.getElem_map]
    rw [hseg]
  rw [hmap]
  cases seg.zoomLevel with
  | some z => rfl
  | none =>
    simp only
    rw [min_min_max_clamp]

/-- Counterexample to C5 as stated: a leg with explicit `zoomLevel` 20 and
`maxZoom` 15 yields 15, not the explicit zoom unmodified. -/
theorem C5_counterexample :
    calculateSegmentZoomLevels (fun _ _ => 0)
      [⟨[], "x", none, none, "", some 20, none⟩] [] { maxZoom := some 15 } = [15] ∧
    (20 : ℚ) ≠ 15 := by
  constructor
  · norm_num [calculateSegmentZoomLevels, jsOr]
  · norm_num

/-- Witness for the amended C5 at a concrete over-limit explicit zoom. -/
theorem C5_segment_zoom_levels_witness :
    (0 : ℕ) < 1 ∧
    (calculateSegmentZoomLevels (fun _ _ => 0)
      [⟨[], "x", none, none, "", some 20, none⟩] [] { maxZoom := some 15 }).getD 0 0 =
      min 20 (jsOr (some 15) 15) := by
  refine ⟨Nat.zero_lt_one, ?_⟩
  have h := C5_segment_zoom_levels (fun _ _ => 0)
    [⟨[], "x", none, none, "", some 20, none⟩] [] { maxZoom := some 15 } 0 (by simp)
    ⟨[], "x", none, none, "", some 20, none⟩ (by simp)
  simpa using h

end ZoomUtils

namespace IconRenderer

/-- One rotating-icon step in terms of the target angle: wrap-normalize
the blended angle, blending only outside the 0.5° dead zone. -/
theorem step_eq (iconType : String) (dx dy a : ℝ)
    (hrot : (lookupIconConfig iconType).rotates = true) :
    (calculateIconTransform iconType dx dy a).newLastAngle =
      wrapAngle (rif ((0.5 : ℝ) < |wrapAngle (targetAngleOf dx dy - a)|)
        (a + wrapAngle (targetAngleOf dx dy - a) * 0.15) a) := by
  rw [calculateIconTransform, targetAngleOf]
  simp only [hrot, if_true]

/-- Inside the dead zone a normalized angle is left unchanged. -/
theorem step_eq_small (iconType : String) (dx dy a : ℝ)
    (hrot : (lookupIconConfig iconType).rotates = true)
    (ha1 : -180 ≤ a) (ha2 : a ≤ 180)
    (hd : ¬(0.5 : ℝ) < |wrapAngle (targetAngleOf dx dy - a)|) :
    (calculateIconTransform iconType dx dy a).newLastAngle = a := by
  rw [step_eq iconType dx dy a hrot, rif_neg hd, wrapAngle_of_mem ha1 ha2]

/-- Outside the dead zone the blend moves 15% of the wrapped delta. -/
theorem step_eq_big (iconType : String) (dx dy a : ℝ)
    (hrot : (lookupIconConfig iconType).rotates = true)
    (hd : (0.5 : ℝ) < |wrapAngle (targetAngleOf dx dy - a)|) :
    (calculateIconTransform iconType dx dy a).newLastAngle =
      wrapAngle (a + wrapAngle (targetAngleOf dx dy - a) * 0.15) := by
  rw [step_eq iconType dx dy a hrot, rif_pos hd]

/-- The wrapped delta contracts by the factor 0.85 on every blended step. -/
theorem wrap_diff_step (T a : ℝ) :
    wrapAngle (T - wrapAngle (a + wrapAngle (T - a) * 0.15)) =
      0.85 * wrapAngle (T - a) := by
  obtain ⟨m, hm⟩ := wrapAngle_sub_turns (T - a)
  obtain ⟨j, hj⟩ := wrapAngle_sub_turns (a + wrapAngle (T - a) * 0.15)
  have hd := wrapAngle_mem (T - a)
  have key : T - wrapAngle (a + wrapAngle (T - a) * 0.15) =
      0.85 * wrapAngle (T - a) + 360 * ((-m - j : ℤ) : ℝ) := by
    rw [hj]
    push_cast
    linarith [hm]
  rw [key]
  apply wrapAngle_add_int
  · nlinarith [hd.1, hd.2]
  · nlinarith [hd.1, hd.2]

/-- Every iterate after the first is wrap-normalized, hence in
`[-180, 180]`. -/
theorem iteratedAngle_mem (iconType : String) (dx dy a0 : ℝ)
    (hrot : (lookupIconConfig iconType).rotates = true)
    (ha1 : -180 ≤ a0) (ha2 : a0 ≤ 180) :
    ∀ n, -180 ≤ iteratedAngle iconType dx dy a0 n ∧
      iteratedAngle iconType dx dy a0 n ≤ 180 := by
  intro n
  cases n with
  | zero => exact ⟨ha1, ha2⟩
  | succ n =>
    rw [iteratedAngle, step_eq iconType dx dy _ hrot]
    exact wrapAngle_mem _

/-- Claim C7 (amended): for every rotating icon kind and constant
direction vector, the iterated rendered angle reaches, within at most 37
calls, a value whose wrapped distance to the target angle is at most the
0.5° dead zone, and from that call on it stays exactly constant (no
residual oscillation).  (It settles *near* the target, not exactly at it:
see the counterexample to the claim as stated.) -/
theorem C7_rotation_settles (iconType : String)
    (hrot : (lookupIconConfig iconType).rotates = true)
    (dx dy a0 : ℝ) (ha1 : -180 ≤ a0) (ha2 : a0 ≤ 180) :
    ∃ k ≤ 37,
      (∀ n, k ≤ n →
        iteratedAngle iconType dx dy a0 n = iteratedAngle iconType dx dy a0 k) ∧
      |wrapAngle (targetAngleOf dx dy - iteratedAngle iconType dx dy a0 k)| ≤ 0.5 := by
  by_cases hex : ∃ k ≤ 37,
      |wrapAngle (targetAngleOf dx dy - iteratedAngle iconType dx dy a0 k)| ≤ 0.5
  · obtain ⟨k, hk37, hdk⟩ := hex
    refine ⟨k, hk37, ?_, hdk⟩
    have hstable : ∀ m, iteratedAngle iconType dx dy a0 (k + m) =
        iteratedAngle iconType dx dy a0 k := by
      intro m
      induction m with
      | zero => rfl
      | succ m ihm =>
        have hmem := iteratedAngle_mem iconType dx dy a0 hrot ha1 ha2 k
        rw [show k + (m + 1) = (k + m) + 1 by omega, iteratedAngle, ihm,
          step_eq_small iconType dx dy _ hrot hmem.1 hmem.2 (not_lt.mpr hdk)]
    intro n hn
    have := hstable (n - k)
    rwa [show k + (n - k) = n by omega] at this
  · push_neg at hex
    exfalso
    have hdstep : ∀ m, m ≤ 36 →
        wrapAngle (targetAngleOf dx dy - iteratedAngle iconType dx dy a0 (m + 1)) =
          0.85 * wrapAngle (targetAngleOf dx dy - iteratedAngle iconType dx dy a0 m) := by
      intro m hm
      rw [iteratedAngle, step_eq_big iconType dx dy _ hrot (hex m (by omega))]
      exact wrap_diff_step _ _
    have hgeom : ∀ m, m ≤ 37 →
        wrapAngle (targetAngleOf dx dy - iteratedAngle iconType dx dy a0 m) =
          0.85 ^ m * wrapAngle (targetAngleOf dx dy - iteratedAngle iconType dx dy a0 0) := by
      intro m
      induction m with
      | zero => intro _; rw [pow_zero, one_mul]
      | succ m ihm =>
        intro hm
        rw [hdstep m (by omega), ihm (by omega), pow_succ]
        ring
    have h37 := hgeom 37 (le_refl _)
    have hd0 := wrapAngle_mem (targetAngleOf dx dy - iteratedAngle iconType dx dy a0 0)
    have habs : |wrapAngle (targetAngleOf dx dy - iteratedAngle iconType dx dy a0 37)| ≤
        (0.85 : ℝ) ^ 37 * 180 := by
      rw [h37, abs_mul, abs_pow]
      have h1 : |(0.85 : ℝ)| = 0.85 := by norm_num
      have h2 : |wrapAngle (targetAngleOf dx dy - iteratedAngle iconType dx dy a0 0)| ≤ 180 := by
        rw [abs_le]
        exact ⟨hd0.1, hd0.2⟩
      rw [h1]
      have hp : (0 : ℝ) ≤ (0.85 : ℝ) ^ 37 := by positivity
      nlinarith
    have hnum : (0.85 : ℝ) ^ 37 * 180 < 0.5 := by norm_num
    have := hex 37 (le_refl _)
    linarith

/-- Heading due west: `atan2(0,-1) = π`, so the target angle is `0`. -/
theorem targetAngle_west : targetAngleOf (-1) 0 = 0 := by
  have ha : atan2 0 (-1) = Real.pi := by
    rw [atan2, if_neg (by norm_num), if_pos (by norm_num), if_pos (le_refl _)]
    norm_num [Real.arctan_zero]
  have h1 : (180 : ℝ) - Real.pi * 180 / Real.pi = 0 := by
    field_simp
  rw [targetAngleOf, ha, h1, wrapAngle_of_mem (by norm_num) (by norm_num)]

/-- Closed form of the car angle iteration from 100° towards the western
target 0°: it decays geometrically by 0.85 for 33 steps and then freezes
at `100 · 0.85³³ ≈ 0.469°`, inside the dead zone but never exactly 0. -/
theorem carIter_eq (n : ℕ) :
    iteratedAngle "car" (-1) 0 100 n = 100 * (0.85 : ℝ) ^ (min n 33) := by
  have hrot : (lookupIconConfig "car").rotates = true := rfl
  induction n with
  | zero => rw [iteratedAngle]; norm_num
  | succ n ih =>
    set a := (100 : ℝ) * 0.85 ^ (min n 33) with ha
    have hppos : (0 : ℝ) < 0.85 ^ (min n 33) := by positivity
    have hapos : 0 < a := by rw [ha]; positivity
    have hale : a ≤ 180 := by
      have hle1 : (0.85 : ℝ) ^ (min n 33) ≤ 1 :=
        pow_le_one₀ (by norm_num) (by norm_num)
      rw [ha]; nlinarith
    have hwrap : wrapAngle (targetAngleOf (-1) 0 - a) = -a := by
      rw [targetAngle_west, zero_sub, wrapAngle_of_mem (by linarith) (by linarith)]
    rcases lt_or_le n 33 with hn | hn
    · have hmin : min n 33 = n := by omega
      have hbig : (0.5 : ℝ) < |wrapAngle (targetAngleOf (-1) 0 - a)| := by
        rw [hwrap, abs_neg, abs_of_pos hapos, ha, hmin]
        have hle : (0.85 : ℝ) ^ 32 ≤ (0.85 : ℝ) ^ n :=
          pow_le_pow_of_le_one (by norm_num) (by norm_num) (by omega)
        have h32 : (1 / 200 : ℝ) < (0.85 : ℝ) ^ 32 := by norm_num
        nlinarith
      rw [iteratedAngle, ih, step_eq_big _ _ _ _ hrot hbig, hwrap]
      have hblend : a + -a * 0.15 = 0.85 * a := by ring
      rw [hblend, wrapAngle_of_mem (by nlinarith) (by nlinarith), ha]
      have hmin1 : min (n + 1) 33 = n + 1 := by omega
      rw [hmin1, hmin, pow_succ]
      ring
    · have hmin : min n 33 = 33 := by omega
      have hsmall : ¬(0.5 : ℝ) < |wrapAngle (targetAngleOf (-1) 0 - a)| := by
        rw [hwrap, abs_neg, abs_of_pos hapos, not_lt, ha, hmin]
        have h33 : (0.85 : ℝ) ^ 33 ≤ 1 / 200 := by norm_num
        nlinarith
      rw [iteratedAngle, ih, step_eq_small _ _ _ _ hrot (by linarith) hale hsmall, ha, hmin]
      have hmin1 : min (n + 1) 33 = 33 := by omega
      rw [hmin1]

/-- Counterexample to claim C7 as stated: the car icon's rendered angle,
iterated with the constant westward direction vector `(-1, 0)` from
`lastAngle = 100`, never equals the target angle `targetAngleOf (-1) 0 = 0`:
the 0.5° dead zone (`Math.abs(angleDiff) > 0.5`, `icon-renderer.js:79`)
freezes it at `100 · 0.85³³ ≈ 0.469°`, so it does not converge *to* the
target angle, only to within 0.5° of it. -/
theorem C7_counterexample :
    ¬∃ N : ℕ, ∀ n, N ≤ n →
      iteratedAngle "car" (-1) 0 100 n = targetAngleOf (-1) 0 := by
  rintro ⟨N, hN⟩
  have h1 := hN (max N 33) (le_max_left _ _)
  rw [carIter_eq, targetAngle_west] at h1
  have hmin : min (max N 33) 33 = 33 := by omega
  rw [hmin] at h1
  have hpos : (0 : ℝ) < 100 * (0.85 : ℝ) ^ 33 := by positivity
  linarith

/-- Witness for C7 (amended): the bike icon heading due south from 30°
settles within 37 steps. -/
theorem C7_rotation_settles_witness :
    ∃ k ≤ 37,
      (∀ n, k ≤ n → iteratedAngle "bike" 0 1 30 n = iteratedAngle "bike" 0 1 30 k) ∧
      |wrapAngle (targetAngleOf 0 1 - iteratedAngle "bike" 0 1 30 k)| ≤ 0.5 :=
  C7_rotation_settles "bike" (by rfl) 0 1 30 (by norm_num) (by norm_num)

end IconRenderer

namespace AnimationCore

open ZoomUtils

/-- The hiking-distance fold over the route equals the filtered-map sum:
only `travelMode === 'hike'` legs contribute. -/
theorem calculateTotalHikingDistance_eq (routeSegments : List Segment) :
    calculateTotalHikingDistance routeSegments = Spec.hikingOnlySum routeSegments := by
  rw [calculateTotalHikingDistance, Spec.hikingOnlySum]
  suffices h : ∀ (l : List Segment) (acc : ℝ),
      l.foldl (fun totalDistance segment =>
        if segment.travelMode = "hike" then totalDistance + polylineDistance segment.coordinates
        else totalDistance) acc =
      acc + ((l.filter (fun s => decide (s.travelMode = "hike"))).map
        (fun s => polylineDistance s.coordinates)).sum by
    rw [h]
    ring
  intro l
  induction l with
  | nil => intro acc; simp
  | cons s rest ih =>
    intro acc
    rw [List.foldl_cons]
    by_cases hs : s.travelMode = "hike"
    · rw [if_pos hs, ih, List.filter_cons_of_pos (by simpa using hs), List.map_cons,
        List.sum_cons]
      ring
    · rw [if_neg hs, ih, List.filter_cons_of_neg (by simpa using hs)]

/-- An ending-phase `renderFrame` call is `renderEnd` after the shared
housekeeping steps. -/
theorem renderFrame_ending (p : RenderParams) (rs : RState) (hph : p.phase = .ending) :
    renderFrame p rs =
      (renderEnd p (setupIcons (setupRouteFurniture p (afterTitle p rs))), noPause) := by
  rw [renderFrame]
  simp only [hph]
  rfl

/-- Claim C9: in the End phase past 30% fade, the destination card's
distance equals the Haversine sum over exactly the hiking-mode legs
(other travel modes contribute nothing), and the distance line is shown
only when that sum is nonzero (positive): otherwise the card holds the
plain destination text. -/
theorem C9_hiking_distance (p : RenderParams) (rs : RState)
    (hph : p.phase = .ending) (hpr : (0.3 : ℚ) < p.phaseProgress) :
    calculateTotalHikingDistance p.routeSegments = Spec.hikingOnlySum p.routeSegments ∧
    ((0 : ℝ) < Spec.hikingOnlySum p.routeSegments →
      (renderFrame p rs).1.els.destinationCardText =
        .withDistance p.config.finalDestination (Spec.hikingOnlySum p.routeSegments)) ∧
    (¬(0 : ℝ) < Spec.hikingOnlySum p.routeSegments →
      (renderFrame p rs).1.els.destinationCardText =
        .plain p.config.finalDestination) := by
  refine ⟨calculateTotalHikingDistance_eq _, ?_, ?_⟩ <;>
    intro hpos <;>
    rw [renderFrame_ending p rs hph] <;>
    simp only [renderEnd] <;>
    rw [if_pos hpr] <;>
    simp only <;>
    rw [calculateTotalHikingDistance_eq]
  · rw [rif_pos hpos]
  · rw [rif_neg hpos]

/-- Witness for C9 on the fixture route (leg B is a hiking leg) at ending
progress 1/2. -/
theorem C9_hiking_distance_witness :
    calculateTotalHikingDistance (Fixtures.testParamsEnd (1/2)).routeSegments =
      Spec.hikingOnlySum (Fixtures.testParamsEnd (1/2)).routeSegments ∧
    ((0 : ℝ) < Spec.hikingOnlySum (Fixtures.testParamsEnd (1/2)).routeSegments →
      (renderFrame (Fixtures.testParamsEnd (1/2)) Fixtures.testRS).1.els.destinationCardText =
        .withDistance (Fixtures.testParamsEnd (1/2)).config.finalDestination
          (Spec.hikingOnlySum (Fixtures.testParamsEnd (1/2)).routeSegments)) ∧
    (¬(0 : ℝ) < Spec.hikingOnlySum (Fixtures.testParamsEnd (1/2)).routeSegments →
      (renderFrame (Fixtures.testParamsEnd (1/2)) Fixtures.testRS).1.els.destinationCardText =
        .plain (Fixtures.testParamsEnd (1/2)).config.finalDestination) :=
  C9_hiking_distance (Fixtures.testParamsEnd (1/2)) Fixtures.testRS (by rfl)
    (by norm_num [Fixtures.testParamsEnd])

/-- The post-title housekeeping touches only the title card, date stamp
and `dateStampShown`. -/
theorem afterTitle_state (p : RenderParams) (rs : RState) :
    (afterTitle p rs).state.lastPausedAfterSegment = rs.state.lastPausedAfterSegment ∧
    (afterTitle p rs).state.waypointShown = rs.state.waypointShown ∧
    (afterTitle p rs).state.waypointMarkers = rs.state.waypointMarkers ∧
    (afterTitle p rs).state.waypointLabels = rs.state.waypointLabels ∧
    (afterTitle p rs).state.endMarkerPlaced = rs.state.endMarkerPlaced := by
  rw [afterTitle]
  split <;> exact ⟨rfl, rfl, rfl, rfl, rfl⟩

/-- Route furniture setup is skipped entirely once the end marker is
placed. -/
theorem setupRouteFurniture_placed (p : RenderParams) (rs : RState)
    (h : rs.state.endMarkerPlaced = true) :
    setupRouteFurniture p rs = rs := by
  rw [setupRouteFurniture, if_pos h]

/-- Setup steps never touch the pause bookkeeping. -/
theorem setupRouteFurniture_lastPaused (p : RenderParams) (rs : RState) :
    (setupRouteFurniture p rs).state.lastPausedAfterSegment =
      rs.state.lastPausedAfterSegment := by
  rw [setupRouteFurniture]
  split <;> rfl

/-- Icon display setup touches only the icon elements and `iconsSetup`. -/
theorem setupIcons_state (rs : RState) :
    (setupIcons rs).state.lastPausedAfterSegment = rs.state.lastPausedAfterSegment ∧
    (setupIcons rs).state.waypointShown = rs.state.waypointShown ∧
    (setupIcons rs).state.waypointMarkers = rs.state.waypointMarkers ∧
    (setupIcons rs).state.waypointLabels = rs.state.waypointLabels := by
  rw [setupIcons]
  split <;> exact ⟨rfl, rfl, rfl, rfl⟩

/-- The pre-route housekeeping chain preserves the paused-after index. -/
theorem preSetup_lastPaused (p : RenderParams) (rs : RState) :
    (setupIcons (setupRouteFurniture p (afterTitle p rs))).state.lastPausedAfterSegment =
      rs.state.lastPausedAfterSegment := by
  rw [(setupIcons_state _).1, setupRouteFurniture_lastPaused, (afterTitle_state p rs).1]

/-- Icon placement never touches the paused-after index. -/
theorem positionIcon_lastPaused (p : RenderParams) (t : String) (sel : Option IconSel)
    (vc c : List (ℚ × ℚ)) (si : ℕ) (rs : RState) :
    (positionIcon p t sel vc c si rs).state.lastPausedAfterSegment =
      rs.state.lastPausedAfterSegment := by
  cases sel with
  | none => rfl
  | some icon =>
    simp only [positionIcon]
    split_ifs <;> rfl

/-- Icon placement never touches the waypoint shown flags. -/
theorem positionIcon_waypointShown (p : RenderParams) (t : String) (sel : Option IconSel)
    (vc c : List (ℚ × ℚ)) (si : ℕ) (rs : RState) :
    (positionIcon p t sel vc c si rs).state.waypointShown = rs.state.waypointShown := by
  cases sel with
  | none => rfl
  | some icon =>
    simp only [positionIcon]
    split_ifs <;> rfl

/-- Icon placement never touches the waypoint labels. -/
theorem positionIcon_waypointLabels (p : RenderParams) (t : String) (sel : Option IconSel)
    (vc c : List (ℚ × ℚ)) (si : ℕ) (rs : RState) :
    (positionIcon p t sel vc c si rs).state.waypointLabels = rs.state.waypointLabels := by
  cases sel with
  | none => rfl
  | some icon =>
    simp only [positionIcon]
    split_ifs <;> rfl

/-- The waypoint label loop never touches the paused-after index. -/
theorem updateWaypoints_lastPaused (p : RenderParams) (rp : ℚ) (cs : ℕ) (sp : ℚ)
    (s : AnimState) :
    (updateWaypoints p rp cs sp s).lastPausedAfterSegment = s.lastPausedAfterSegment := rfl

/-- The route-phase body never touches the paused-after index. -/
theorem routeBody_lastPaused (p : RenderParams) (rp : ℚ) (cs : ℕ) (sp : ℚ) (rs : RState) :
    (routeBody p rp cs sp rs).state.lastPausedAfterSegment =
      rs.state.lastPausedAfterSegment := by
  simp only [routeBody, apply_ite (fun r : RState => r.state.lastPausedAfterSegment),
    positionIcon_lastPaused, apply_ite (fun s : AnimState => s.lastPausedAfterSegment),
    ite_self, updateWaypoints_lastPaused]

/-- The route-phase body's waypoint flags come from the waypoint label
loop alone. -/
theorem routeBody_waypointShown (p : RenderParams) (rp : ℚ) (cs : ℕ) (sp : ℚ) (rs : RState) :
    (routeBody p rp cs sp rs).state.waypointShown =
      (updateWaypoints p rp cs sp rs.state).waypointShown := by
  simp only [routeBody, apply_ite (fun r : RState => r.state.waypointShown),
    positionIcon_waypointShown, apply_ite (fun s : AnimState => s.waypointShown),
    ite_self]

/-- The route-phase body's waypoint labels come from the waypoint label
loop alone. -/
theorem routeBody_waypointLabels (p : RenderParams) (rp : ℚ) (cs : ℕ) (sp : ℚ) (rs : RState) :
    (routeBody p rp cs sp rs).state.waypointLabels =
      (updateWaypoints p rp cs sp rs.state).waypointLabels := by
  simp only [routeBody, apply_ite (fun r : RState => r.state.waypointLabels),
    positionIcon_waypointLabels, apply_ite (fun s : AnimState => s.waypointLabels),
    ite_self]

/-- Route-phase pause branch (`map-init.js:576-584`): mark the boundary as
paused-after and return the configured (`|| 0.5`) duration; nothing else
changes. -/
theorem renderRoute_pause (p : RenderParams) (rs : RState)
    (hc : 0 < (getSegmentInfo p.phaseProgress p.config.segmentProgressThresholds).currentSegment ∧
      rs.state.lastPausedAfterSegment <
        ((getSegmentInfo p.phaseProgress p.config.segmentProgressThresholds).currentSegment : ℤ) - 1) :
    renderRoute p rs =
      ({ rs with state := { rs.state with lastPausedAfterSegment :=
            ((getSegmentInfo p.phaseProgress p.config.segmentProgressThresholds).currentSegment : ℤ) - 1 } },
       { shouldPause := true
         pauseDuration := some (jsOr (p.config.segmentPauses.get?
           ((getSegmentInfo p.phaseProgress p.config.segmentProgressThresholds).currentSegment - 1)) 0.5)
         pauseAtSegment := some
           (((getSegmentInfo p.phaseProgress p.config.segmentProgressThresholds).currentSegment : ℤ) - 1) }) := by
  simp only [renderRoute]
  rw [if_pos hc]

/-- Route-phase non-pause branch: the visual body runs and no pause is
reported. -/
theorem renderRoute_noPause (p : RenderParams) (rs : RState)
    (hc : ¬(0 < (getSegmentInfo p.phaseProgress p.config.segmentProgressThresholds).currentSegment ∧
      rs.state.lastPausedAfterSegment <
        ((getSegmentInfo p.phaseProgress p.config.segmentProgressThresholds).currentSegment : ℤ) - 1)) :
    renderRoute p rs =
      (routeBody p p.phaseProgress
        (getSegmentInfo p.phaseProgress p.config.segmentProgressThresholds).currentSegment
        (getSegmentInfo p.phaseProgress p.config.segmentProgressThresholds).segmentProgress rs,
       noPause) := by
  simp only [renderRoute]
  rw [if_neg hc]

/-- A route-phase `renderFrame` call is `renderRoute` after the shared
housekeeping steps. -/
theorem renderFrame_route (p : RenderParams) (rs : RState) (hph : p.phase = .route) :
    renderFrame p rs = renderRoute p (setupIcons (setupRouteFurniture p (afterTitle p rs))) := by
  rw [renderFrame]
  simp only [hph]
  rfl

/-- A route-phase call whose pause condition holds reports the pause and
sets the paused-after index to the boundary. -/
theorem renderFrame_route_pause (p : RenderParams) (rs : RState) (hph : p.phase = .route)
    (hc : 0 < (getSegmentInfo p.phaseProgress p.config.segmentProgressThresholds).currentSegment ∧
      rs.state.lastPausedAfterSegment <
        ((getSegmentInfo p.phaseProgress p.config.segmentProgressThresholds).currentSegment : ℤ) - 1) :
    (renderFrame p rs).2 =
      { shouldPause := true
        pauseDuration := some (jsOr (p.config.segmentPauses.get?
          ((getSegmentInfo p.phaseProgress p.config.segmentProgressThresholds).currentSegment - 1)) 0.5)
        pauseAtSegment := some
          (((getSegmentInfo p.phaseProgress p.config.segmentProgressThresholds).currentSegment : ℤ) - 1) } ∧
    (renderFrame p rs).1.state.lastPausedAfterSegment =
      ((getSegmentInfo p.phaseProgress p.config.segmentProgressThresholds).currentSegment : ℤ) - 1 := by
  rw [renderFrame_route p rs hph]
  have hc' : 0 < (getSegmentInfo p.phaseProgress p.config.segmentProgressThresholds).currentSegment ∧
      (setupIcons (setupRouteFurniture p (afterTitle p rs))).state.lastPausedAfterSegment <
        ((getSegmentInfo p.phaseProgress p.config.segmentProgressThresholds).currentSegment : ℤ) - 1 := by
    rw [preSetup_lastPaused]
    exact hc
  rw [renderRoute_pause p _ hc']
  exact ⟨rfl, rfl⟩

/-- A route-phase call whose pause condition fails reports no pause and
preserves the paused-after index. -/
theorem renderFrame_route_noPause (p : RenderParams) (rs : RState) (hph : p.phase = .route)
    (hc : ¬(0 < (getSegmentInfo p.phaseProgress p.config.segmentProgressThresholds).currentSegment ∧
      rs.state.lastPausedAfterSegment <
        ((getSegmentInfo p.phaseProgress p.config.segmentProgressThresholds).currentSegment : ℤ) - 1)) :
    (renderFrame p rs).2 = noPause ∧
    (renderFrame p rs).1.state.lastPausedAfterSegment =
      rs.state.lastPausedAfterSegment := by
  rw [renderFrame_route p rs hph]
  have hc' : ¬(0 < (getSegmentInfo p.phaseProgress p.config.segmentProgressThresholds).currentSegment ∧
      (setupIcons (setupRouteFurniture p (afterTitle p rs))).state.lastPausedAfterSegment <
        ((getSegmentInfo p.phaseProgress p.config.segmentProgressThresholds).currentSegment : ℤ) - 1) := by
    rw [preSetup_lastPaused]
    exact hc
  rw [renderRoute_noPause p _ hc']
  refine ⟨rfl, ?_⟩
  rw [routeBody_lastPaused, preSetup_lastPaused]

/-- One result per call. -/
theorem runCalls_length (qs : List RenderParams) (rs : RState) :
    (runCalls qs rs).length = qs.length := by
  induction qs generalizing rs with
  | nil => rfl
  | cons q rest ih =>
    rw [runCalls]
    simp [ih]

/-- Fixture route thresholds: legs share the 4 waypoints equally. -/
theorem testConfig_thresholds :
    Fixtures.testConfig.segmentProgressThresholds = [1/2, 1] := by
  norm_num [Fixtures.testConfig, createAnimationConfig, calculateSegmentProgressThresholds,
    thresholdLoop, Fixtures.segA, Fixtures.segB]

/-- Fixture route pauses: leg A configured 0, leg B defaulted 0.5. -/
theorem testConfig_pauses :
    Fixtures.testConfig.segmentPauses = [0, 1/2] := by
  norm_num [Fixtures.testConfig, createAnimationConfig, Fixtures.segA, Fixtures.segB]

/-- Segment resolution at fixture progress 6/10: leg 1, 20% in. -/
theorem segInfo_6_10 : getSegmentInfo (6/10) [1/2, 1] = ⟨1, 1/2, 1/5⟩ := by
  norm_num [getSegmentInfo, segScan, jsOrNum]

/-- Segment resolution at fixture progress 13/20: still leg 1. -/
theorem segInfo_cs_13_20 : (getSegmentInfo (13/20) [1/2, 1]).currentSegment = 1 := by
  norm_num [getSegmentInfo, segScan]

/-- Segment resolution at fixture progress 7/10: still leg 1. -/
theorem segInfo_cs_7_10 : (getSegmentInfo (7/10) [1/2, 1]).currentSegment = 1 := by
  norm_num [getSegmentInfo, segScan]

/-- Segment resolution at fixture progress 6/10, in the exact form it
takes inside a `renderFrame` call. -/
theorem segInfoAt_6_10 :
    getSegmentInfo (Fixtures.testParams (6/10)).phaseProgress
      (Fixtures.testParams (6/10)).config.segmentProgressThresholds = ⟨1, 1/2, 1/5⟩ := by
  show getSegmentInfo (6/10) Fixtures.testConfig.segmentProgressThresholds = _
  rw [testConfig_thresholds, segInfo_6_10]

/-- The first route-phase call on the fresh fixture state at progress 6/10
signals the pause after leg 0, with the `|| 0.5` fallback duration (leg 0's
configured pause is 0), and marks leg 0 as paused-after. -/
theorem firstCall_result :
    (renderFrame (Fixtures.testParams (6/10)) Fixtures.testRS).2 =
      { shouldPause := true, pauseDuration := some (1/2), pauseAtSegment := some 0 } ∧
    (renderFrame (Fixtures.testParams (6/10)) Fixtures.testRS).1.state.lastPausedAfterSegment
      = 0 := by
  have hcs := segInfoAt_6_10
  obtain ⟨h2, h1⟩ := renderFrame_route_pause (Fixtures.testParams (6/10)) Fixtures.testRS rfl
    (by
      rw [hcs]
      refine ⟨by norm_num, ?_⟩
      norm_num [Fixtures.testRS, createAnimationState])
  rw [hcs] at h2 h1
  constructor
  · rw [h2]
    norm_num [Fixtures.testParams, testConfig_pauses, jsOr]
  · rw [h1]
    norm_num

/-- Claim C2: once a route-phase call has reported a pause for the
boundary after leg `k` (recorded in `lastPausedAfterSegment`), no further
sequence of route-phase calls whose progress stays within leg `k + 1`
ever reports a pause again. -/
theorem C2_pause_once (p0 : RenderParams) (rs0 : RState) (k : ℤ)
    (hph0 : p0.phase = .route)
    (hpause : (renderFrame p0 rs0).2.shouldPause = true)
    (hk : (renderFrame p0 rs0).2.pauseAtSegment = some k)
    (qs : List RenderParams)
    (hqs : ∀ q ∈ qs, q.phase = .route ∧
      ((getSegmentInfo q.phaseProgress
        q.config.segmentProgressThresholds).currentSegment : ℤ) = k + 1) :
    ∀ r ∈ runCalls qs (renderFrame p0 rs0).1, r.shouldPause = false := by
  by_cases hc : 0 < (getSegmentInfo p0.phaseProgress
      p0.config.segmentProgressThresholds).currentSegment ∧
      rs0.state.lastPausedAfterSegment <
        ((getSegmentInfo p0.phaseProgress
          p0.config.segmentProgressThresholds).currentSegment : ℤ) - 1
  case neg =>
    exfalso
    have h := (renderFrame_route_noPause p0 rs0 hph0 hc).1
    rw [h] at hpause
    simp [noPause] at hpause
  case pos =>
    obtain ⟨hres, hlp⟩ := renderFrame_route_pause p0 rs0 hph0 hc
    rw [hres] at hk
    have hk' : ((getSegmentInfo p0.phaseProgress
        p0.config.segmentProgressThresholds).currentSegment : ℤ) - 1 = k := by
      simpa using hk
    rw [hk'] at hlp
    suffices hinv : ∀ (qs' : List RenderParams) (rs : RState),
        (∀ q ∈ qs', q.phase = .route ∧
          ((getSegmentInfo q.phaseProgress
            q.config.segmentProgressThresholds).currentSegment : ℤ) = k + 1) →
        k ≤ rs.state.lastPausedAfterSegment →
        ∀ r ∈ runCalls qs' rs, r.shouldPause = false by
      exact hinv qs _ hqs hlp.ge
    intro qs'
    induction qs' with
    | nil =>
      intro rs _ _ r hr
      simp [runCalls] at hr
    | cons q rest ih =>
      intro rs hq hlpk r hr
      have hq1 := hq q (List.mem_cons_self _ _)
      have hcond : ¬(0 < (getSegmentInfo q.phaseProgress
          q.config.segmentProgressThresholds).currentSegment ∧
          rs.state.lastPausedAfterSegment <
            ((getSegmentInfo q.phaseProgress
              q.config.segmentProgressThresholds).currentSegment : ℤ) - 1) := by
        rintro ⟨-, h2⟩
        rw [hq1.2] at h2
        omega
      obtain ⟨hres2, hpres⟩ := renderFrame_route_noPause q rs hq1.1 hcond
      rw [runCalls] at hr
      simp only [List.mem_cons] at hr
      rcases hr with rfl | hr
      · rw [hres2]
        rfl
      · exact ih (renderFrame q rs).1
          (fun q' hq' => hq q' (List.mem_cons_of_mem _ hq'))
          (by rw [hpres]; exact hlpk) r hr

/-- Witness for C2: after the fixture pause at the leg-0 boundary, two
further calls inside leg 1 both report no pause. -/
theorem C2_pause_once_witness :
    ((runCalls [Fixtures.testParams (13/20), Fixtures.testParams (7/10)]
        (renderFrame (Fixtures.testParams (6/10)) Fixtures.testRS).1).getD 0
      noPause).shouldPause = false ∧
    ((runCalls [Fixtures.testParams (13/20), Fixtures.testParams (7/10)]
        (renderFrame (Fixtures.testParams (6/10)) Fixtures.testRS).1).getD 1
      noPause).shouldPause = false := by
  have h := C2_pause_once (Fixtures.testParams (6/10)) Fixtures.testRS 0 rfl
    (by rw [firstCall_result.1])
    (by rw [firstCall_result.1])
    [Fixtures.testParams (13/20), Fixtures.testParams (7/10)]
    (by
      intro q hq
      simp only [List.mem_cons, List.not_mem_nil, or_false] at hq
      rcases hq with rfl | rfl
      · refine ⟨rfl, ?_⟩
        show ((getSegmentInfo (13/20)
          Fixtures.testConfig.segmentProgressThresholds).currentSegment : ℤ) = 0 + 1
        rw [testConfig_thresholds, segInfo_cs_13_20]
        norm_num
      · refine ⟨rfl, ?_⟩
        show ((getSegmentInfo (7/10)
          Fixtures.testConfig.segmentProgressThresholds).currentSegment : ℤ) = 0 + 1
        rw [testConfig_thresholds, segInfo_cs_7_10]
        norm_num)
  have hlen : (runCalls [Fixtures.testParams (13/20), Fixtures.testParams (7/10)]
      (renderFrame (Fixtures.testParams (6/10)) Fixtures.testRS).1).length = 2 :=
    runCalls_length _ _
  constructor
  · exact h _ (by rw [List.getD_eq_getElem _ _ (by omega)]; exact List.getElem_mem _)
  · exact h _ (by rw [List.getD_eq_getElem _ _ (by omega)]; exact List.getElem_mem _)

/-- Icon placement never touches the waypoint markers. -/
theorem positionIcon_waypointMarkers (p : RenderParams) (t : String) (sel : Option IconSel)
    (vc c : List (ℚ × ℚ)) (si : ℕ) (rs : RState) :
    (positionIcon p t sel vc c si rs).state.waypointMarkers = rs.state.waypointMarkers := by
  cases sel with
  | none => rfl
  | some icon =>
    simp only [positionIcon]
    split_ifs <;> rfl

/-- Icon placement never touches the placed flag. -/
theorem positionIcon_endMarkerPlaced (p : RenderParams) (t : String) (sel : Option IconSel)
    (vc c : List (ℚ × ℚ)) (si : ℕ) (rs : RState) :
    (positionIcon p t sel vc c si rs).state.endMarkerPlaced = rs.state.endMarkerPlaced := by
  cases sel with
  | none => rfl
  | some icon =>
    simp only [positionIcon]
    split_ifs <;> rfl

/-- The route-phase body's waypoint markers come from the waypoint label
loop alone. -/
theorem routeBody_waypointMarkers (p : RenderParams) (rp : ℚ) (cs : ℕ) (sp : ℚ)
    (rs : RState) :
    (routeBody p rp cs sp rs).state.waypointMarkers =
      (updateWaypoints p rp cs sp rs.state).waypointMarkers := by
  simp only [routeBody, apply_ite (fun r : RState => r.state.waypointMarkers),
    positionIcon_waypointMarkers, apply_ite (fun s : AnimState => s.waypointMarkers),
    ite_self]

/-- The waypoint loop never touches the placed flag. -/
theorem updateWaypoints_endMarkerPlaced (p : RenderParams) (rp : ℚ) (cs : ℕ) (sp : ℚ)
    (s : AnimState) :
    (updateWaypoints p rp cs sp s).endMarkerPlaced = s.endMarkerPlaced := rfl

/-- The route-phase body never touches the placed flag. -/
theorem routeBody_endMarkerPlaced (p : RenderParams) (rp : ℚ) (cs : ℕ) (sp : ℚ)
    (rs : RState) :
    (routeBody p rp cs sp rs).state.endMarkerPlaced = rs.state.endMarkerPlaced := by
  simp only [routeBody, apply_ite (fun r : RState => r.state.endMarkerPlaced),
    positionIcon_endMarkerPlaced, apply_ite (fun s : AnimState => s.endMarkerPlaced),
    ite_self, updateWaypoints_endMarkerPlaced]

/-- The waypoint loop steps each waypoint in place. -/
theorem updateWaypoints_markers_length (p : RenderParams) (rp : ℚ) (cs : ℕ) (sp : ℚ)
    (s : AnimState) :
    (updateWaypoints p rp cs sp s).waypointMarkers.length = s.waypointMarkers.length := by
  simp [updateWaypoints]

/-- The waypoint loop's shown flag for waypoint `i`: previous flag OR the
fade-in test `routeProgress ≥ showThreshold i` (hence one-shot). -/
theorem updateWaypoints_shown_getD (p : RenderParams) (rp : ℚ) (cs : ℕ) (sp : ℚ)
    (s : AnimState) (i : ℕ) (hi : i < s.waypointMarkers.length) :
    (updateWaypoints p rp cs sp s).waypointShown.getD i false =
      (s.waypointShown.getD i false ||
        decide (rp ≥ showThreshold p.config.segmentProgressThresholds i)) := by
  simp only [updateWaypoints]
  rw [List.getD_eq_getElem _ _ (by simpa using hi), List.getElem_map, List.getElem_map,
    List.getElem_range]
  simp only [waypointStep]
  cases hs : s.waypointShown.getD i false <;> simp

/-- The waypoint loop's label for a not-yet-visited waypoint `i`: opacity
set to 1 exactly on the fade-in call, otherwise untouched. -/
theorem updateWaypoints_label_getD (p : RenderParams) (rp : ℚ) (cs : ℕ) (sp : ℚ)
    (s : AnimState) (i : ℕ) (hi : i < s.waypointMarkers.length) (hvis : ¬cs > i) :
    (updateWaypoints p rp cs sp s).waypointLabels.getD i ⟨(0, 0), "", 0⟩ =
      (if (!(s.waypointShown.getD i false) &&
          decide (rp ≥ showThreshold p.config.segmentProgressThresholds i)) = true
       then { s.waypointLabels.getD i ⟨(0, 0), "", 0⟩ with opacity := 1 }
       else s.waypointLabels.getD i ⟨(0, 0), "", 0⟩) := by
  simp only [updateWaypoints]
  rw [List.getD_eq_getElem _ _ (by simpa using hi), List.getElem_map, List.getElem_map,
    List.getElem_range]
  simp only [waypointStep]
  have hv : decide (cs > i) = false := by simpa using hvis
  rw [hv]
  simp

/-- Once the end marker is placed, the pre-route housekeeping chain
preserves all waypoint furniture. -/
theorem preSetup_waypoints (p : RenderParams) (rs : RState)
    (hpl : rs.state.endMarkerPlaced = true) :
    (setupIcons (setupRouteFurniture p (afterTitle p rs))).state.waypointShown =
      rs.state.waypointShown ∧
    (setupIcons (setupRouteFurniture p (afterTitle p rs))).state.waypointMarkers =
      rs.state.waypointMarkers ∧
    (setupIcons (setupRouteFurniture p (afterTitle p rs))).state.waypointLabels =
      rs.state.waypointLabels := by
  rw [setupRouteFurniture_placed p _ (by rw [(afterTitle_state p rs).2.2.2.2]; exact hpl)]
  obtain ⟨-, hA2, hA3, hA4, -⟩ := afterTitle_state p rs
  obtain ⟨-, hS2, hS3, hS4⟩ := setupIcons_state (afterTitle p rs)
  exact ⟨by rw [hS2, hA2], by rw [hS3, hA3], by rw [hS4, hA4]⟩

/-- A no-pause route call is the route body on the housekept state. -/
theorem renderFrame_route_body (p : RenderParams) (rs : RState)
    (hph : p.phase = .route)
    (hc : ¬(0 < (getSegmentInfo p.phaseProgress
        p.config.segmentProgressThresholds).currentSegment ∧
      rs.state.lastPausedAfterSegment <
        ((getSegmentInfo p.phaseProgress
          p.config.segmentProgressThresholds).currentSegment : ℤ) - 1)) :
    (renderFrame p rs).1 =
      routeBody p p.phaseProgress
        (getSegmentInfo p.phaseProgress p.config.segmentProgressThresholds).currentSegment
        (getSegmentInfo p.phaseProgress p.config.segmentProgressThresholds).segmentProgress
        (setupIcons (setupRouteFurniture p (afterTitle p rs))) := by
  have hc' : ¬(0 < (getSegmentInfo p.phaseProgress
      p.config.segmentProgressThresholds).currentSegment ∧
      (setupIcons (setupRouteFurniture p (afterTitle p rs))).state.lastPausedAfterSegment <
        ((getSegmentInfo p.phaseProgress
          p.config.segmentProgressThresholds).currentSegment : ℤ) - 1) := by
    rw [preSetup_lastPaused]
    exact hc
  rw [renderFrame_route p rs hph, renderRoute_noPause p _ hc']

/-- The shown-flag law at the `renderFrame` level, for a post-setup
no-pause route call. -/
theorem renderFrame_route_shown (p : RenderParams) (rs : RState) (i : ℕ)
    (hph : p.phase = .route)
    (hpl : rs.state.endMarkerPlaced = true)
    (hc : ¬(0 < (getSegmentInfo p.phaseProgress
        p.config.segmentProgressThresholds).currentSegment ∧
      rs.state.lastPausedAfterSegment <
        ((getSegmentInfo p.phaseProgress
          p.config.segmentProgressThresholds).currentSegment : ℤ) - 1))
    (hi : i < rs.state.waypointMarkers.length) :
    (renderFrame p rs).1.state.waypointShown.getD i false =
      (rs.state.waypointShown.getD i false ||
        decide (p.phaseProgress ≥ showThreshold p.config.segmentProgressThresholds i)) := by
  obtain ⟨hW1, hW2, hW3⟩ := preSetup_waypoints p rs hpl
  rw [renderFrame_route_body p rs hph hc, routeBody_waypointShown,
    updateWaypoints_shown_getD _ _ _ _ _ i (by rw [hW2]; exact hi), hW1]

/-- Once the one-time flags are set and the title card is already hidden,
the pre-route housekeeping chain is the identity. -/
theorem preSetup_id (p : RenderParams) (rs : RState)
    (h1 : rs.state.dateStampShown = true) (h2 : rs.els.titleCardOpacity = 0)
    (h3 : rs.state.endMarkerPlaced = true) (h4 : rs.state.iconsSetup = true) :
    setupIcons (setupRouteFurniture p (afterTitle p rs)) = rs := by
  have hat : afterTitle p rs = rs := by
    rw [afterTitle, if_neg (by simp [h1])]
    obtain ⟨s, els⟩ := rs
    obtain ⟨tc, e2, e3, e4, e5, e6, e7, e8, e9, e10, e11⟩ := els
    have h2' : tc = 0 := h2
    rw [h2']
  rw [hat, setupRouteFurniture_placed p rs h3, setupIcons, if_pos h4]

/-- Claim C10 (amended): a route-phase call that signals a pause performs
none of the frame's visual updates — camera, path overlay, waypoint
labels, icon position/orientation and all other state are exactly as
before; the one exception is the one-time housekeeping (title-card hide,
date stamp, route furniture, icon display) that runs before the pause
check on the first route calls.  Once those one-time flags are set, the
only field such a call changes is `lastPausedAfterSegment`. -/
theorem C10_pause_frame_effects (p : RenderParams) (rs : RState)
    (hph : p.phase = .route)
    (h1 : rs.state.dateStampShown = true) (h2 : rs.els.titleCardOpacity = 0)
    (h3 : rs.state.endMarkerPlaced = true) (h4 : rs.state.iconsSetup = true)
    (hc : 0 < (getSegmentInfo p.phaseProgress
        p.config.segmentProgressThresholds).currentSegment ∧
      rs.state.lastPausedAfterSegment <
        ((getSegmentInfo p.phaseProgress
          p.config.segmentProgressThresholds).currentSegment : ℤ) - 1) :
    (renderFrame p rs).2.shouldPause = true ∧
    (renderFrame p rs).1 =
      { rs with state := { rs.state with lastPausedAfterSegment :=
          ((getSegmentInfo p.phaseProgress
            p.config.segmentProgressThresholds).currentSegment : ℤ) - 1 } } := by
  rw [renderFrame_route p rs hph, preSetup_id p rs h1 h2 h3 h4, renderRoute_pause p rs hc]
  exact ⟨rfl, rfl⟩

/-- Counterexample to C10 as stated: the very first route-phase call that
signals a pause has already mutated the animation state beyond the pause
bookkeeping — it placed the end marker (and set the other one-time setup
flags) before returning. -/
theorem C10_counterexample :
    (renderFrame (Fixtures.testParams (6/10)) Fixtures.testRS).2.shouldPause = true ∧
    (renderFrame (Fixtures.testParams (6/10)) Fixtures.testRS).1.state.endMarkerPlaced = true ∧
    Fixtures.testRS.state.endMarkerPlaced = false := by
  refine ⟨by rw [firstCall_result.1], ?_, rfl⟩
  have hpre : (setupIcons (setupRouteFurniture (Fixtures.testParams (6/10))
      (afterTitle (Fixtures.testParams (6/10))
        Fixtures.testRS))).state.endMarkerPlaced = true := by rfl
  have hc2 : 0 < (getSegmentInfo (Fixtures.testParams (6/10)).phaseProgress
      (Fixtures.testParams (6/10)).config.segmentProgressThresholds).currentSegment ∧
      (setupIcons (setupRouteFurniture (Fixtures.testParams (6/10))
        (afterTitle (Fixtures.testParams (6/10))
          Fixtures.testRS))).state.lastPausedAfterSegment <
        ((getSegmentInfo (Fixtures.testParams (6/10)).phaseProgress
          (Fixtures.testParams (6/10)).config.segmentProgressThresholds).currentSegment : ℤ)
          - 1 := by
    rw [segInfoAt_6_10, preSetup_lastPaused]
    exact ⟨by norm_num, by norm_num [Fixtures.testRS, createAnimationState]⟩
  rw [renderFrame_route _ _ rfl, renderRoute_pause _ _ hc2]
  exact hpre

/-- Witness for C10 (amended) on the flags-set fixture state. -/
theorem C10_pause_frame_effects_witness :
    (renderFrame (Fixtures.testParams (6/10)) Fixtures.testRSReady).2.shouldPause = true ∧
    (renderFrame (Fixtures.testParams (6/10)) Fixtures.testRSReady).1 =
      { Fixtures.testRSReady with state :=
          { Fixtures.testRSReady.state with lastPausedAfterSegment := 0 } } := by
  have h := C10_pause_frame_effects (Fixtures.testParams (6/10)) Fixtures.testRSReady rfl
    rfl rfl rfl rfl
    (by
      rw [segInfoAt_6_10]
      exact ⟨by norm_num,
        by norm_num [Fixtures.testRSReady, Fixtures.testRS, createAnimationState]⟩)
  rw [segInfoAt_6_10] at h
  simpa using h

/-- Segment resolution at fixture progress 1/100, as it appears inside a
`renderFrame` call: leg 0, 2% in. -/
theorem segInfoAt_1_100 :
    getSegmentInfo (Fixtures.testParams (1/100)).phaseProgress
      (Fixtures.testParams (1/100)).config.segmentProgressThresholds = ⟨0, 0, 1/50⟩ := by
  show getSegmentInfo (1/100) Fixtures.testConfig.segmentProgressThresholds = _
  rw [testConfig_thresholds]
  norm_num [getSegmentInfo, segScan, jsOrNum]

/-- Segment resolution at fixture progress 83/500: leg 0, 33.2% in. -/
theorem segInfoAt_83_500 :
    getSegmentInfo (Fixtures.testParams (83/500)).phaseProgress
      (Fixtures.testParams (83/500)).config.segmentProgressThresholds = ⟨0, 0, 83/250⟩ := by
  show getSegmentInfo (83/500) Fixtures.testConfig.segmentProgressThresholds = _
  rw [testConfig_thresholds]
  norm_num [getSegmentInfo, segScan, jsOrNum]

/-- No pause can trigger at fixture progress 83/500: the resolved leg is
leg 0. -/
theorem noPauseAt_83_500 (rs : RState) :
    ¬(0 < (getSegmentInfo (Fixtures.testParams (83/500)).phaseProgress
        (Fixtures.testParams (83/500)).config.segmentProgressThresholds).currentSegment ∧
      rs.state.lastPausedAfterSegment <
        ((getSegmentInfo (Fixtures.testParams (83/500)).phaseProgress
          (Fixtures.testParams (83/500)).config.segmentProgressThresholds).currentSegment : ℤ)
          - 1) := by
  rw [segInfoAt_83_500]
  rintro ⟨h, -⟩
  simp at h

/-- After one route call at progress 1/100 on the fresh fixture state: the
waypoint furniture exists (one labelled intermediate waypoint, end marker
placed) and waypoint 0 has not faded in. -/
theorem C6_state1_facts :
    (renderFrame (Fixtures.testParams (1/100)) Fixtures.testRS).1.state.endMarkerPlaced
      = true ∧
    (renderFrame (Fixtures.testParams (1/100))
      Fixtures.testRS).1.state.waypointMarkers.length = 1 ∧
    (renderFrame (Fixtures.testParams (1/100))
      Fixtures.testRS).1.state.waypointShown.getD 0 false = false := by
  have hc1 : ¬(0 < (getSegmentInfo (Fixtures.testParams (1/100)).phaseProgress
      (Fixtures.testParams (1/100)).config.segmentProgressThresholds).currentSegment ∧
      Fixtures.testRS.state.lastPausedAfterSegment <
        ((getSegmentInfo (Fixtures.testParams (1/100)).phaseProgress
          (Fixtures.testParams (1/100)).config.segmentProgressThresholds).currentSegment : ℤ)
          - 1) := by
    rw [segInfoAt_1_100]
    rintro ⟨h, -⟩
    simp at h
  have hframe1 := renderFrame_route_body (Fixtures.testParams (1/100)) Fixtures.testRS rfl hc1
  refine ⟨?_, ?_, ?_⟩
  · rw [hframe1, routeBody_endMarkerPlaced]
    rfl
  · rw [hframe1, routeBody_waypointMarkers, updateWaypoints_markers_length]
    rfl
  · rw [hframe1, routeBody_waypointShown,
      updateWaypoints_shown_getD _ _ _ _ _ 0 (by decide)]
    show (false || decide ((1/100 : ℚ) ≥
      showThreshold Fixtures.testConfig.segmentProgressThresholds 0)) = false
    rw [testConfig_thresholds]
    simp only [Bool.false_or, decide_eq_false_iff_not, ge_iff_le, not_le]
    norm_num [showThreshold]

/-- Claim C6 (amended): on a post-setup no-pause route call, waypoint `i`'s
shown flag becomes `old OR (progress ≥ showThreshold i)` — one-shot, and
its label's opacity is set to 1 exactly on the fade-in call (while the
waypoint is not yet visited).  The fade-in point is `thresholds[0] · 0.33`
for the first waypoint — the constant is 0.33, not 1/3 — and for later
waypoints `t_{i-1} + (t_i - t_{i-1}) · 0.33`: one third of the way into
the gap before waypoint `i`, not two thirds as claimed. -/
theorem C6_waypoint_fadein (p : RenderParams) (rs : RState) (i : ℕ)
    (hph : p.phase = .route)
    (hpl : rs.state.endMarkerPlaced = true)
    (hc : ¬(0 < (getSegmentInfo p.phaseProgress
        p.config.segmentProgressThresholds).currentSegment ∧
      rs.state.lastPausedAfterSegment <
        ((getSegmentInfo p.phaseProgress
          p.config.segmentProgressThresholds).currentSegment : ℤ) - 1))
    (hi : i < rs.state.waypointMarkers.length) :
    ((renderFrame p rs).1.state.waypointShown.getD i false =
      (rs.state.waypointShown.getD i false ||
        decide (p.phaseProgress ≥ showThreshold p.config.segmentProgressThresholds i))) ∧
    (rs.state.waypointShown.getD i false = true →
      (renderFrame p rs).1.state.waypointShown.getD i false = true) ∧
    (¬(getSegmentInfo p.phaseProgress
        p.config.segmentProgressThresholds).currentSegment > i →
      (renderFrame p rs).1.state.waypointLabels.getD i ⟨(0, 0), "", 0⟩ =
        (if (!(rs.state.waypointShown.getD i false) &&
            decide (p.phaseProgress ≥
              showThreshold p.config.segmentProgressThresholds i)) = true
         then { rs.state.waypointLabels.getD i ⟨(0, 0), "", 0⟩ with opacity := 1 }
         else rs.state.waypointLabels.getD i ⟨(0, 0), "", 0⟩)) ∧
    (showThreshold p.config.segmentProgressThresholds 0 =
      p.config.segmentProgressThresholds.getD 0 0 * 0.33) ∧
    (∀ j, 0 < j → j - 1 < p.config.segmentProgressThresholds.length →
      p.config.segmentProgressThresholds.getD (j - 1) 0 ≠ 0 →
      showThreshold p.config.segmentProgressThresholds j =
        p.config.segmentProgressThresholds.getD (j - 1) 0 +
          (p.config.segmentProgressThresholds.getD j 0 -
            p.config.segmentProgressThresholds.getD (j - 1) 0) * 0.33) := by
  have hshown := renderFrame_route_shown p rs i hph hpl hc hi
  obtain ⟨hW1, hW2, hW3⟩ := preSetup_waypoints p rs hpl
  refine ⟨hshown, ?_, ?_, ?_, ?_⟩
  · intro h
    rw [hshown, h]
    rfl
  · intro hvis
    rw [renderFrame_route_body p rs hph hc, routeBody_waypointLabels,
      updateWaypoints_label_getD _ _ _ _ _ i (by rw [hW2]; exact hi) hvis, hW1, hW3]
  · simp [showThreshold]
  · intro j hj hjlen hjnz
    rw [showThreshold, if_neg (by omega)]
    have hsome : p.config.segmentProgressThresholds.get? (j - 1) =
        some (p.config.segmentProgressThresholds.getD (j - 1) 0) := by
      rw [List.get?_eq_getElem?, List.getElem?_eq_getElem hjlen,
        List.getD_eq_getElem _ _ hjlen]
    rw [hsome]
    simp only [jsOr]
    rw [if_neg hjnz]
    ring

/-- Counterexample to C6 as stated: over the fixture route the first
waypoint's code fade-in point is `0.5 · 0.33 = 0.165`, so a call at
progress `83/500 = 0.166` fades it in — although `0.166` is still below
the claimed fade-in point `thresholds[0]/3 = 1/6 ≈ 0.1667`. -/
theorem C6_counterexample :
    (renderFrame (Fixtures.testParams (83/500))
        (renderFrame (Fixtures.testParams (1/100))
          Fixtures.testRS).1).1.state.waypointShown.getD 0 false = true ∧
    (83/500 : ℚ) < Fixtures.testConfig.segmentProgressThresholds.getD 0 0 * (1/3) := by
  obtain ⟨hpl1, hlen1, hsh1⟩ := C6_state1_facts
  constructor
  · rw [renderFrame_route_shown (Fixtures.testParams (83/500)) _ 0 rfl hpl1
      (noPauseAt_83_500 _) (by rw [hlen1]; norm_num), hsh1]
    show (false || decide ((83/500 : ℚ) ≥
      showThreshold Fixtures.testConfig.segmentProgressThresholds 0)) = true
    rw [testConfig_thresholds]
    simp only [Bool.false_or, decide_eq_true_eq, ge_iff_le]
    norm_num [showThreshold]
  · rw [testConfig_thresholds]
    norm_num

/-- Witness for C6 (amended) at the fixture's first waypoint. -/
theorem C6_waypoint_fadein_witness :
    (renderFrame (Fixtures.testParams (83/500))
        (renderFrame (Fixtures.testParams (1/100))
          Fixtures.testRS).1).1.state.waypointShown.getD 0 false =
      ((renderFrame (Fixtures.testParams (1/100))
          Fixtures.testRS).1.state.waypointShown.getD 0 false ||
        decide ((Fixtures.testParams (83/500)).phaseProgress ≥
          showThreshold (Fixtures.testParams (83/500)).config.segmentProgressThresholds 0)) ∧
    showThreshold (Fixtures.testParams (83/500)).config.segmentProgressThresholds 0 =
      (Fixtures.testParams (83/500)).config.segmentProgressThresholds.getD 0 0 * 0.33 := by
  have h := C6_waypoint_fadein (Fixtures.testParams (83/500))
    (renderFrame (Fixtures.testParams (1/100)) Fixtures.testRS).1 0 rfl
    C6_state1_facts.1 (noPauseAt_83_500 _)
    (by rw [C6_state1_facts.2.1]; norm_num)
  exact ⟨h.1, h.2.2.2.1⟩

end AnimationCore

namespace FrameDriver

open AnimationCore ZoomUtils

/-- A driver frame spent while paused: the Core is not called, the render
state is untouched, one pause frame is consumed. -/
theorem renderCinematicFrame_paused (dp : DriverParams) (config : AnimConfig)
    (routeSegments : List Segment) (smoothing : Smoothing)
    (proj : (ℚ × ℚ) → ℚ × ℚ) (frameNumber : ℕ) (ds : DriverState)
    (hp : ds.pauseState.isPaused = true) :
    renderCinematicFrame dp config routeSegments smoothing proj frameNumber ds =
      { ds with pauseState := { ds.pauseState with
          pauseFramesRemaining := ds.pauseState.pauseFramesRemaining - 1
          isPaused := !decide (ds.pauseState.pauseFramesRemaining - 1 ≤ 0) } } := by
  simp only [renderCinematicFrame]
  rw [if_pos hp]

/-- A driver frame on which the Core requests a positive pause: the pause
is converted to `⌊duration · 30⌋` whole pause frames. -/
theorem renderCinematicFrame_pauseStart (dp : DriverParams) (config : AnimConfig)
    (routeSegments : List Segment) (smoothing : Smoothing)
    (proj : (ℚ × ℚ) → ℚ × ℚ) (frameNumber : ℕ) (ds : DriverState)
    (hnp : ds.pauseState.isPaused = false) (d : ℚ) (k : ℤ)
    (hres : (renderFrame
        { phase := (driverPhaseProgress dp ds.pauseState.lastPausedAfterSegment frameNumber).1
          phaseProgress :=
            min 1 (max 0 (driverPhaseProgress dp ds.pauseState.lastPausedAfterSegment frameNumber).2)
          config := config
          routeSegments := routeSegments
          smoothing := smoothing
          latLngToContainerPoint := proj } ds.rstate).2 =
      { shouldPause := true, pauseDuration := some d, pauseAtSegment := some k })
    (hd : 0 < d) :
    renderCinematicFrame dp config routeSegments smoothing proj frameNumber ds =
      { pauseState :=
          { isPaused := true
            pauseFramesRemaining := ⌊d * 30⌋
            lastPausedAfterSegment := k }
        rstate := (renderFrame
          { phase := (driverPhaseProgress dp ds.pauseState.lastPausedAfterSegment frameNumber).1
            phaseProgress :=
              min 1 (max 0 (driverPhaseProgress dp ds.pauseState.lastPausedAfterSegment frameNumber).2)
            config := config
            routeSegments := routeSegments
            smoothing := smoothing
            latLngToContainerPoint := proj } ds.rstate).1 } := by
  simp only [renderCinematicFrame]
  rw [if_neg (by rw [hnp]; simp), hres, if_pos ⟨rfl, hd⟩]
  simp

/-- The driver phase/progress at fixture frame 171 before any pause has
been consumed: 6 route frames of 10, i.e. route progress 3/5. -/
theorem driverPhase_171 :
    driverPhaseProgress Fixtures.testDriverParams (-1) 171 = (.route, 3/5) := by
  norm_num [driverPhaseProgress, Fixtures.testDriverParams, cumulativeAt,
    cumulativePauseFrames, cumulativeLoop, segmentPauseFrames, Fixtures.segA,
    Fixtures.segB, jsOr]

/-- Claim C3 (amended): a leg whose configured pause duration is 0 still
triggers the pause signal at its boundary, but with duration 0.5 (the
`|| 0.5` fallback treats the configured 0 as falsy), not 0; the
frame-exact driver converts it to `⌊0.5 · 30⌋ = 15` pause frames, so 15
frozen frames are produced, not none. -/
theorem C3_zero_pause (p : RenderParams) (rs : RState)
    (dp : DriverParams) (frameNumber : ℕ) (ds : DriverState)
    (hph : p.phase = .route)
    (hc : 0 < (getSegmentInfo p.phaseProgress
        p.config.segmentProgressThresholds).currentSegment ∧
      rs.state.lastPausedAfterSegment <
        ((getSegmentInfo p.phaseProgress
          p.config.segmentProgressThresholds).currentSegment : ℤ) - 1)
    (hzero : p.config.segmentPauses.get?
      ((getSegmentInfo p.phaseProgress
        p.config.segmentProgressThresholds).currentSegment - 1) = some 0)
    (hnp : ds.pauseState.isPaused = false)
    (hds : ds.rstate = rs)
    (hmatch : ({ phase := (driverPhaseProgress dp ds.pauseState.lastPausedAfterSegment frameNumber).1
                 phaseProgress :=
                   min 1 (max 0 (driverPhaseProgress dp ds.pauseState.lastPausedAfterSegment frameNumber).2)
                 config := p.config
                 routeSegments := p.routeSegments
                 smoothing := p.smoothing
                 latLngToContainerPoint := p.latLngToContainerPoint } : RenderParams) = p) :
    (renderFrame p rs).2 =
      { shouldPause := true, pauseDuration := some (1/2),
        pauseAtSegment := some (((getSegmentInfo p.phaseProgress
          p.config.segmentProgressThresholds).currentSegment : ℤ) - 1) } ∧
    renderCinematicFrame dp p.config p.routeSegments p.smoothing p.latLngToContainerPoint
        frameNumber ds =
      { pauseState :=
          { isPaused := true
            pauseFramesRemaining := 15
            lastPausedAfterSegment := ((getSegmentInfo p.phaseProgress
              p.config.segmentProgressThresholds).currentSegment : ℤ) - 1 }
        rstate := (renderFrame p rs).1 } := by
  have hres := (renderFrame_route_pause p rs hph hc).1
  rw [hzero] at hres
  have hres' : (renderFrame p rs).2 =
      { shouldPause := true, pauseDuration := some (1/2),
        pauseAtSegment := some (((getSegmentInfo p.phaseProgress
          p.config.segmentProgressThresholds).currentSegment : ℤ) - 1) } := by
    rw [hres]
    norm_num [jsOr]
  refine ⟨hres', ?_⟩
  have h := renderCinematicFrame_pauseStart dp p.config p.routeSegments p.smoothing
    p.latLngToContainerPoint frameNumber ds hnp (1/2)
    (((getSegmentInfo p.phaseProgress
      p.config.segmentProgressThresholds).currentSegment : ℤ) - 1)
    (by rw [hmatch, hds]; exact hres') (by norm_num)
  rw [h, hmatch, hds]
  norm_num

/-- Counterexample to C3 as stated: leg A's configured pause is 0, yet the
pause is signalled with duration 1/2 (not 0), the driver's per-leg pause
frame counts are 15 (not 0), and the driver then spends whole frozen
frames consuming them (the render state is left untouched while 14 pause
frames remain). -/
theorem C3_counterexample :
    Fixtures.segA.pause = some 0 ∧
    (renderFrame (Fixtures.testParams (6/10)) Fixtures.testRS).2.pauseDuration =
      some (1/2) ∧
    some (1/2 : ℚ) ≠ some (0 : ℚ) ∧
    segmentPauseFrames [Fixtures.segA, Fixtures.segB] = [15, 15] ∧
    renderCinematicFrame Fixtures.testDriverParams Fixtures.testConfig
        [Fixtures.segA, Fixtures.segB] ⟨12/100, 6/100, false⟩ (fun _ => (0, 0)) 172
        ⟨⟨true, 15, 0⟩, (renderFrame (Fixtures.testParams (6/10)) Fixtures.testRS).1⟩ =
      ⟨⟨true, 14, 0⟩, (renderFrame (Fixtures.testParams (6/10)) Fixtures.testRS).1⟩ ∧
    (14 : ℤ) ≠ 0 := by
  refine ⟨rfl, by rw [firstCall_result.1], by norm_num, ?_, ?_, by norm_num⟩
  · norm_num [segmentPauseFrames, Fixtures.segA, Fixtures.segB, jsOr]
  · rw [renderCinematicFrame_paused _ _ _ _ _ _ _ rfl]
    norm_num

/-- Witness for C3 (amended): fixture frame 171 converts the zero-pause
boundary of leg A into 15 pause frames. -/
theorem C3_zero_pause_witness :
    (renderFrame (Fixtures.testParams (6/10)) Fixtures.testRS).2 =
      { shouldPause := true, pauseDuration := some (1/2), pauseAtSegment := some 0 } ∧
    renderCinematicFrame Fixtures.testDriverParams (Fixtures.testParams (6/10)).config
        (Fixtures.testParams (6/10)).routeSegments (Fixtures.testParams (6/10)).smoothing
        (Fixtures.testParams (6/10)).latLngToContainerPoint 171
        ⟨initialPauseState, Fixtures.testRS⟩ =
      { pauseState :=
          { isPaused := true
            pauseFramesRemaining := 15
            lastPausedAfterSegment := 0 }
        rstate := (renderFrame (Fixtures.testParams (6/10)) Fixtures.testRS).1 } := by
  have h := C3_zero_pause (Fixtures.testParams (6/10)) Fixtures.testRS
    Fixtures.testDriverParams 171 ⟨initialPauseState, Fixtures.testRS⟩ rfl
    (by
      rw [segInfoAt_6_10]
      exact ⟨by norm_num, by norm_num [Fixtures.testRS, createAnimationState]⟩)
    (by
      rw [segInfoAt_6_10]
      show Fixtures.testConfig.segmentPauses.get? 0 = some 0
      rw [testConfig_pauses]
      rfl)
    rfl rfl
    (by norm_num [initialPauseState, driverPhase_171, Fixtures.testParams])
  rw [segInfoAt_6_10] at h
  simpa using h

end FrameDriver

end MapQuest
